import Mathlib

/-!
Verification development for the EchoEtch audio-note ingestion pipeline.

The Python sources are shallowly embedded below:
* `src/src/transcriber.py`  — `WhisperTranscriber.transcribe`
* `src/src/processor.py`    — `OllamaProcessor.process_transcription`
* `src/src/note_manager.py` — `NoteManager.create_note` (audio move portion)
* `src/main.py`             — `AudioFileHandler` (orchestrator state machine)

Wall-clock times and file sizes are modelled as `Nat`; Python's float time
comparisons `now - t >= d` coincide with the `Nat` comparisons used here on
every monotone trace (and truncated subtraction gives the same verdict for
the `>= d, d > 0` comparisons even off-trace).  Python dicts are modelled as
insertion-ordered association lists, Python sets of strings as lists with
set-semantics insertion.  External collaborators (Whisper, Ollama, the
filesystem) are modelled as explicit inputs/oracles passed to each step.
-/

namespace EchoEtch

/-! ## Association-list helpers (Python dict semantics: insertion order kept) -/

def lookupKey {α : Type} (k : String) : List (String × α) → Option α
  | [] => none
  | (k', v) :: rest => if k' = k then some v else lookupKey k rest

def eraseKey {α : Type} (k : String) : List (String × α) → List (String × α)
  | [] => []
  | (k', v) :: rest => if k' = k then eraseKey k rest else (k', v) :: eraseKey k rest

def setKey {α : Type} (k : String) (v : α) : List (String × α) → List (String × α)
  | [] => [(k, v)]
  | (k', v') :: rest => if k' = k then (k, v) :: rest else (k', v') :: setKey k v rest

/-- Python `set.add` on a set modelled as a duplicate-free list. -/
def insertName (n : String) (l : List String) : List String :=
  if n ∈ l then l else l ++ [n]

/-! ## Python-style whitespace and the regex substitutions used by the repo

`transcriber.py` lines 45-53 and `processor.py` lines 171-182 clean text with
`re.sub`.  Each pattern below is implemented character-exactly, including the
greedy/backtracking behaviour of the Python `re` engine on these patterns.
The scanners take an explicit fuel argument so that they are structurally
recursive (hence kernel-evaluable); every scanning step consumes at least one
input character, so fuel equal to the input length, as supplied by each
wrapper, never runs out. -/

/-- Python `\s` on ASCII text: space, tab, newline, vertical tab, form feed,
carriage return. -/
def isPySpace (c : Char) : Bool :=
  c = ' ' || c = '\t' || c = '\n' || c = '\x0b' || c = '\x0c' || c = '\r'

/-- Maximal whitespace prefix and the remainder. -/
def takeWsRun : List Char → List Char × List Char
  | [] => ([], [])
  | c :: cs =>
    if isPySpace c then
      let p := takeWsRun cs
      (c :: p.1, p.2)
    else ([], c :: cs)

/-- Suffix after the last `'\n'` of the list, when one is present. -/
def lastNlSplit : List Char → Option (List Char)
  | [] => none
  | c :: cs =>
    match lastNlSplit cs with
    | some rest => some rest
    | none => if c = '\n' then some cs else none

/-- Python `re.sub(r'\n\s*\n', '\n', text)`: a `'\n'` followed by a whitespace
run containing at least one further `'\n'` matches, greedily, up to the last
`'\n'` of the run, and is replaced by a single `'\n'`; scanning resumes after
the match. -/
def collapseNlF : Nat → List Char → List Char
  | 0, l => l
  | _ + 1, [] => []
  | fuel + 1, c :: cs =>
    if c = '\n' then
      match lastNlSplit (takeWsRun cs).1 with
      | some after => '\n' :: collapseNlF fuel (after ++ (takeWsRun cs).2)
      | none => '\n' :: collapseNlF fuel cs
    else c :: collapseNlF fuel cs

def collapseNl (l : List Char) : List Char := collapseNlF l.length l

/-- Python `re.sub(r' +', ' ', text)`. -/
def collapseSpacesF : Nat → List Char → List Char
  | 0, l => l
  | _ + 1, [] => []
  | fuel + 1, c :: cs =>
    if c = ' ' then ' ' :: collapseSpacesF fuel (cs.dropWhile (· = ' '))
    else c :: collapseSpacesF fuel cs

def collapseSpaces (l : List Char) : List Char := collapseSpacesF l.length l

/-- Python `re.sub(r'(\n[#]+)([^\s])', r'\1 \2', text)`, including the
backtracking case where the final `'#'` of a run itself matches `[^\s]`. -/
def headerFixF : Nat → List Char → List Char
  | 0, l => l
  | _ + 1, [] => []
  | fuel + 1, c :: cs =>
    if c = '\n' then
      if (cs.takeWhile (· = '#')).isEmpty then '\n' :: headerFixF fuel cs
      else
        match cs.dropWhile (· = '#') with
        | r :: rs =>
          if ¬ isPySpace r then
            '\n' :: (cs.takeWhile (· = '#') ++ ' ' :: r :: headerFixF fuel rs)
          else if 2 ≤ (cs.takeWhile (· = '#')).length then
            '\n' :: ((cs.takeWhile (· = '#')).dropLast ++
              ' ' :: '#' :: headerFixF fuel (cs.dropWhile (· = '#')))
          else '\n' :: headerFixF fuel cs
        | [] =>
          if 2 ≤ (cs.takeWhile (· = '#')).length then
            '\n' :: ((cs.takeWhile (· = '#')).dropLast ++ [' ', '#'])
          else '\n' :: headerFixF fuel cs
    else c :: headerFixF fuel cs

def headerFix (l : List Char) : List Char := headerFixF l.length l

/-- Python `re.sub(r'(\n[-*])([^\s])', r'\1 \2', text)`. -/
def listFixF : Nat → List Char → List Char
  | 0, l => l
  | _ + 1, [] => []
  | fuel + 1, c :: cs =>
    if c = '\n' then
      match cs with
      | m :: r :: rs =>
        if (m = '-' ∨ m = '*') ∧ ¬ isPySpace r then
          '\n' :: m :: ' ' :: r :: listFixF fuel rs
        else '\n' :: listFixF fuel cs
      | _ => '\n' :: listFixF fuel cs
    else c :: listFixF fuel cs

def listFix (l : List Char) : List Char := listFixF l.length l

/-- Python `re.sub(r'\s+([.,!?])', r'\1', text)`: a whitespace run directly
followed by sentence punctuation is deleted. -/
def punctAfterWsF : Nat → List Char → List Char
  | 0, l => l
  | _ + 1, [] => []
  | fuel + 1, c :: cs =>
    if isPySpace c then
      match (takeWsRun cs).2 with
      | p :: ps =>
        if p = '.' ∨ p = ',' ∨ p = '!' ∨ p = '?' then p :: punctAfterWsF fuel ps
        else c :: punctAfterWsF fuel cs
      | [] => c :: punctAfterWsF fuel cs
    else c :: punctAfterWsF fuel cs

def punctAfterWs (l : List Char) : List Char := punctAfterWsF l.length l

/-- Python `re.sub(r'([.,!?])([^\s])', r'\1 \2', text)`. -/
def punctSpacingF : Nat → List Char → List Char
  | 0, l => l
  | _ + 1, [] => []
  | fuel + 1, c :: cs =>
    if c = '.' ∨ c = ',' ∨ c = '!' ∨ c = '?' then
      match cs with
      | d :: ds =>
        if ¬ isPySpace d then c :: ' ' :: d :: punctSpacingF fuel ds
        else c :: punctSpacingF fuel cs
      | [] => [c]
    else c :: punctSpacingF fuel cs

def punctSpacing (l : List Char) : List Char := punctSpacingF l.length l

/-- Python `re.sub(r'\s+', ' ', text)`. -/
def wsCollapseF : Nat → List Char → List Char
  | 0, l => l
  | _ + 1, [] => []
  | fuel + 1, c :: cs =>
    if isPySpace c then ' ' :: wsCollapseF fuel (cs.dropWhile isPySpace)
    else c :: wsCollapseF fuel cs

def wsCollapse (l : List Char) : List Char := wsCollapseF l.length l

/-- Python `str.strip()`. -/
def pyStrip (l : List Char) : List Char :=
  ((l.dropWhile isPySpace).reverse.dropWhile isPySpace).reverse

example : pyStrip "  hi there \n".toList = "hi there".toList := by decide
example : collapseNl "a\n \n \nb".toList = "a\nb".toList := by decide
example : collapseSpaces "a   b".toList = "a b".toList := by decide
example : punctAfterWs "word  .next".toList = "word.next".toList := by decide
example : punctSpacing "a.b".toList = "a. b".toList := by decide
example : punctSpacing "a. b".toList = "a. b".toList := by decide
example : wsCollapse "a \n\t b".toList = "a b".toList := by decide
example : headerFix "\n##x".toList = "\n## x".toList := by decide
example : headerFix "\n##\n".toList = "\n# #\n".toList := by decide
example : listFix "\n-x".toList = "\n- x".toList := by decide

/-! ## Dynamic Python values

`main.py` consumes the transcriber's return value dynamically (`.get(...)`),
so for claim C1 Python runtime values are modelled explicitly.  Attribute
lookup `v.get(key, default)` succeeds only on a dict; on any other value
Python raises `AttributeError`. -/

inductive PyVal where
  | pstr (s : String)
  | pnone
  | pnum (n : Int)
  | plist (xs : List PyVal)
  | pdict (kvs : List (String × PyVal))

/-- Python `v.get(key, default)`: a dict method; any non-dict receiver raises
`AttributeError`. -/
def pyGet (v : PyVal) (key : String) (dflt : PyVal) : Except String PyVal :=
  match v with
  | .pdict kvs => .ok ((lookupKey key kvs).getD dflt)
  | _ => .error ("AttributeError: no attribute get for key " ++ key)

namespace WhisperTranscriber

/-- Text cleanup of `transcriber.py` lines 43-53: `result["text"].strip()`
followed by the four `re.sub` substitutions and a final `strip()`. -/
def clean_text (raw : String) : String :=
  String.mk (pyStrip (wsCollapse (punctSpacing (punctAfterWs
    (collapseNl (pyStrip raw.toList))))))

/-- `WhisperTranscriber.transcribe` (`transcriber.py` lines 19-55): the
Whisper model's output text (the `result["text"]` entry of the external
model's result) is cleaned and returned.  The function's Python return value
is the bare cleaned string — not a dict. -/
def transcribe (whisper_text : String) : PyVal :=
  .pstr (clean_text whisper_text)

end WhisperTranscriber

/-- The orchestrator's reads of the transcription value, `main.py` lines
300-310: `transcription_data.get("language")` and
`transcription_data.get("segments", [])`, both performed before
`process_transcription` is invoked. -/
def orchestrator_transcription_reads (transcription_data : PyVal) :
    Except String (PyVal × PyVal) := do
  let lang ← pyGet transcription_data "language" PyVal.pnone
  let segs ← pyGet transcription_data "segments" (PyVal.plist [])
  pure (lang, segs)

/-! ## OllamaProcessor (`src/src/processor.py`) -/

namespace OllamaProcessor

/-- A successfully parsed and validated LLM response
(`_validate_and_parse_response`, `processor.py` lines 47-70): the four
required fields, already cleaned. -/
structure ParsedResponse where
  title : String
  content : String
  tags : List String
  tasks : List String
deriving Repr, DecidableEq

/-- The `conversion_quality` evaluation attached to a response
(`_evaluate_conversion`, `processor.py` lines 72-119). -/
structure ConversionQuality where
  completeness : ℚ
  structure_score : ℚ
  clarity : ℚ
  task_handling : ℚ
  overall_quality : ℚ
  explanation : String
deriving Repr, DecidableEq

/-- The dict returned by `process_transcription`. -/
structure ProcessedNote where
  title : String
  content : String
  tags : List String
  tasks : List String
  original_transcription : String
  conversion_quality : ConversionQuality
deriving Repr, DecidableEq

/-- The all-zero quality record of the fallback path
(`processor.py` lines 265-272). -/
def failedQuality : ConversionQuality :=
  { completeness := 0, structure_score := 0, clarity := 0, task_handling := 0,
    overall_quality := 0, explanation := "Conversion failed" }

/-- Python `str.split(sep)` for a nonempty separator: non-overlapping
left-to-right splitting.  Fuelled like the other scanners (each recursive
call consumes at least one character). -/
def pySplitGo (sep : List Char) : Nat → List Char → List Char →
    List (List Char)
  | 0, acc, l => [acc.reverse ++ l]
  | _ + 1, acc, [] => [acc.reverse]
  | fuel + 1, acc, c :: cs =>
    if sep.isPrefixOf (c :: cs) then
      acc.reverse :: pySplitGo sep fuel [] (List.drop sep.length (c :: cs))
    else pySplitGo sep fuel (c :: acc) cs

def pySplit (sep : String) (s : String) : List String :=
  (pySplitGo sep.toList (s.toList.length + 1) [] s.toList).map String.mk

/-- Python `sep.join(pieces)`. -/
def pyJoin (sep : String) : List String → String
  | [] => ""
  | [s] => s
  | s :: rest => s ++ sep ++ pyJoin sep rest

example : pySplit ". " "a. b. " = ["a", "b", ""] := by decide
example : pySplit ". " "" = [""] := by decide
example : pyJoin ". " ["a", "b"] = "a. b" := by decide

/-- Python `sentence.strip()` is falsy exactly when every char is whitespace. -/
def strippedEmpty (s : String) : Bool := s.toList.all isPySpace

/-- The dedup loop of `detect_repetition` (`processor.py` lines 189-198):
keep the first occurrence of each non-blank sentence, in order. -/
def dedupSentences (seen : List String) : List String → List String
  | [] => []
  | s :: rest =>
    if ¬ strippedEmpty s ∧ s ∉ seen then s :: dedupSentences (s :: seen) rest
    else dedupSentences seen rest

/-- `detect_repetition` (`processor.py` lines 189-198): split on `". "`,
drop blank and repeated sentences, re-join with `". "`. -/
def detect_repetition (text : String) : String :=
  pyJoin ". " (dedupSentences [] (pySplit ". " text))

/-- `_clean_whitespace` (`processor.py` lines 171-182). -/
def clean_whitespace (text : String) : String :=
  String.mk (pyStrip (listFix (headerFix (collapseSpaces
    (collapseNl text.toList)))))

/-- The input cleanup at the top of `process_transcription`
(`processor.py` lines 200-202). -/
def cleanedInput (text : String) : String :=
  clean_whitespace (detect_repetition text)

/-- Substring containment, Python `"x" in content`. -/
def pyInfix (pat s : String) : Bool := decide (pat.toList <:+: s.toList)

/-- Python `str.split()` with no argument: split on whitespace runs,
dropping empty pieces.  Fuelled like the scanners above. -/
def pyWordsF : Nat → List Char → List (List Char)
  | 0, _ => []
  | _ + 1, [] => []
  | fuel + 1, c :: cs =>
    if isPySpace c then pyWordsF fuel cs
    else (c :: cs.takeWhile (fun d => ¬ isPySpace d)) ::
      pyWordsF fuel (cs.dropWhile (fun d => ¬ isPySpace d))

def pyWords (s : String) : List (List Char) := pyWordsF s.toList.length s.toList

/-- `score_response` inside `_compare_responses` (`processor.py` lines
126-162).  Scores are exact halves, so `ℚ` models the float arithmetic
faithfully.  In `process_transcription` every response carries a
`conversion_quality` entry, so the final `if 'conversion_quality' in
response` test is always true here. -/
def score_response (r : ProcessedNote) : ℚ :=
  (if r.title ≠ "" ∧ 3 ≤ (pyWords r.title).length ∧
      (pyWords r.title).length ≤ 10 then 1 else 0)
  + (if pyInfix "##" r.content then 1 else 0)
  + (if pyInfix "###" r.content then 1/2 else 0)
  + (if pyInfix "- " r.content ∨ pyInfix "1. " r.content then 1/2 else 0)
  + (if pyInfix "**" r.content ∨ pyInfix "*" r.content ∨
        pyInfix "`" r.content then 1/2 else 0)
  + (if 2 ≤ r.tags.length ∧ r.tags.length ≤ 5 then 1 else 0)
  + (if 100 ≤ r.content.length ∧ r.content.length ≤ 5000 then 1
     else if 5000 < r.content.length then -(1/2) else 0)
  + r.conversion_quality.overall_quality / 2

/-- Python `max(..., key=...)`: first element with the maximal score. -/
def maxByScore (best : ProcessedNote) : List ProcessedNote → ProcessedNote
  | [] => best
  | r :: rest =>
    if score_response best < score_response r then maxByScore r rest
    else maxByScore best rest

/-- `_compare_responses` (`processor.py` lines 121-169); its caller only
reaches it with a nonempty list, on `[]` the Python code raises. -/
def compare_responses : List ProcessedNote → Except String ProcessedNote
  | [] => .error "No valid responses to compare"
  | r :: rest => .ok (maxByScore r rest)

/-- The temperature-indexed generation attempts (`processor.py` lines
242-255): per temperature, `_send_to_ollama` followed by
`_validate_and_parse_response`; exceptions from either step (modelled as
`Except.error`) skip that attempt.  The quality evaluation
`_evaluate_conversion` never raises (it returns a zeroed record on failure)
and is modelled by the total oracle `evalQ`. -/
def attemptsFor (gen : ℚ → Except String ParsedResponse)
    (evalQ : ℚ → ParsedResponse → ConversionQuality) (cleaned : String) :
    List ℚ → List ProcessedNote
  | [] => []
  | t :: ts =>
    match gen t with
    | .ok p =>
      { title := p.title, content := p.content, tags := p.tags,
        tasks := p.tasks, original_transcription := cleaned,
        conversion_quality := evalQ t p } :: attemptsFor gen evalQ cleaned ts
    | .error _ => attemptsFor gen evalQ cleaned ts

/-- The temperatures tried, `processor.py` line 239: `[0.3, 0.4, 0.5, 0.6, 0.7]`. -/
def temperatures : List ℚ := [3/10, 2/5, 1/2, 3/5, 7/10]

/-- `process_transcription` (`processor.py` lines 184-279).  `gen t` is the
outcome of the Ollama generation plus JSON validation at temperature `t`;
`evalQ t p` the (never-failing) self-evaluation of parsed attempt `p`.
With no successful attempt the fallback record of lines 257-273 is
returned; otherwise the best-scored response (`_compare_responses`, which
its caller only reaches with a nonempty list) with the original
transcription re-attached (line 278). -/
def process_transcription (gen : ℚ → Except String ParsedResponse)
    (evalQ : ℚ → ParsedResponse → ConversionQuality) (text : String) :
    ProcessedNote :=
  let cleaned := cleanedInput text
  match attemptsFor gen evalQ cleaned temperatures with
  | [] =>
    { title := "Untitled Note", content := cleaned, tags := [], tasks := [],
      original_transcription := cleaned, conversion_quality := failedQuality }
  | r :: rest => { maxByScore r rest with original_transcription := cleaned }

end OllamaProcessor

/-! ## NoteManager (`src/src/note_manager.py`) — the audio-relocation step

A filesystem fragment is a map from path strings to byte sizes, as an
association list.  `shutil.copy2` is modelled by an oracle `copyResult`:
`none` means the copy raised (nothing written), `some k` means a file of `k`
bytes now sits at the destination (`k` can differ from the source size, the
situation the verification step guards against). -/

abbrev FileSys := List (String × Nat)

namespace NoteManager

/-- The move-then-verify-then-delete block of `create_note`
(`note_manager.py` lines 79-96), for a source not already in the daily
folder and an already collision-resolved destination path: copy, check that
the destination exists with the source's byte size, and only then unlink
the source.  A copy failure or a failed verification raises (`Except.error`)
and performs no unlink. -/
def move_audio (fs : FileSys) (src dst : String) (copyResult : Option Nat) :
    FileSys × Except String Unit :=
  match copyResult with
  | none => (fs, .error "Failed to move audio file: copy raised")
  | some k =>
    let fs1 := setKey dst k fs
    match lookupKey dst fs1, lookupKey src fs1 with
    | some dsz, some ssz =>
      if dsz = ssz then (eraseKey src fs1, .ok ())
      else (fs1, .error "Failed to move audio file: File copy verification failed")
    | _, _ => (fs1, .error "Failed to move audio file: File copy verification failed")

end NoteManager

/-! ## The orchestrator (`src/main.py`, `AudioFileHandler`)

Paths are modelled after `pathlib`: a parent directory, a stem and a
suffix.  The handler's mutable attributes that the claims touch are the
state; logging-only attributes (`last_empty_notification`) are omitted.
The field `pipeline_calls` is not a Python attribute: it is the observation
trace of calls to `_process_audio_file`, recorded so that "the pipeline is
invoked" is expressible. -/

structure FPath where
  dir : String
  stem : String
  suffix : String
deriving Repr, DecidableEq

/-- `file_path.name`. -/
def FPath.name (p : FPath) : String := p.stem ++ p.suffix

/-- `str(file_path)`. -/
def FPath.str (p : FPath) : String := p.dir ++ "/" ++ p.stem ++ p.suffix

/-- Per-candidate tracking info, the dict built in `start_monitoring_file`
(`main.py` lines 226-231). -/
structure FileInfo where
  first_seen_time : Nat
  last_check_time : Nat
  last_size : Nat
  last_stable_time : Nat
deriving Repr, DecidableEq

/-- The metadata sidecar written next to a quarantined file
(`move_to_error_dir`, `main.py` lines 249-257). -/
structure Sidecar where
  original_path : String
  first_error_time : Nat
  attempts : Nat
  last_error : String
deriving Repr, DecidableEq

/-- The orchestrator state.  `failed_counts` and `failed_errors` together
model the Python dict `failed_files`, whose keys are either a path string
(attempt count) or a path string suffixed with `'_last_error'` (error text);
the two key families are disjoint, giving two maps.  `quarantined` is the
contents of the error directory: destination file name paired with its
sidecar. -/
structure HandlerState where
  processed_files : List String
  failed_counts : List (String × Nat)
  failed_errors : List (String × String)
  files_in_progress : List (FPath × FileInfo)
  quarantined : List (String × Sidecar)
  last_health_check : Nat
  last_directory_scan : Nat
  pipeline_calls : List String
deriving Repr, DecidableEq

/-- Key membership in `files_in_progress`, Python
`str_path in self.files_in_progress`. -/
def fipHasKey (l : List (FPath × FileInfo)) (k : String) : Bool :=
  l.any (fun e => e.1.str = k)

/-- Policy constants, `main.py` lines 67-76. -/
def max_retry_attempts : Nat := 3
def required_stable_time : Nat := 3
def max_wait_time : Nat := 60
def max_processed_files : Nat := 1000
def health_check_interval : Nat := 3600
def directory_scan_interval : Nat := 30

/-- Python `str.lower()` on ASCII text (extensions here are ASCII). -/
def pyLowerChar (c : Char) : Char :=
  if 'A' ≤ c ∧ c ≤ 'Z' then Char.ofNat (c.toNat + 32) else c

def pyLower (s : String) : String := String.mk (s.toList.map pyLowerChar)

/-- The audio allow-list, `main.py` lines 197 and 359. -/
def audio_exts : List String := [".mp3", ".wav", ".m4a"]

/-- `move_to_error_dir` (`main.py` lines 236-266).  The destination name is
the file's name, or `stem_<timestamp><suffix>` on collision with an
existing quarantined entry.  `rename_ok` tells whether the filesystem
rename succeeds; on failure the handler logs and changes nothing (the
`except` branch).  On success the sidecar is written and both
`failed_files` entries for the path are popped. -/
def move_to_error_dir (now : Nat) (rename_ok : Bool) (p : FPath)
    (s : HandlerState) : HandlerState :=
  let ename :=
    if (s.quarantined.map (fun e => e.1)).contains p.name
    then p.stem ++ "_" ++ toString now ++ p.suffix else p.name
  if rename_ok then
    { s with
      quarantined := s.quarantined ++ [(ename,
        { original_path := p.str
          first_error_time := now
          attempts := (lookupKey p.str s.failed_counts).getD 0
          last_error := (lookupKey p.str s.failed_errors).getD "Unknown error" })]
      failed_counts := eraseKey p.str s.failed_counts
      failed_errors := eraseKey p.str s.failed_errors }
  else s

/-- The external outcome of one `_process_audio_file` call:
whether the path still exists at the top-of-function check (line 289), the
combined result of the transcribe → process → create-note body (lines
296-322, an exception carrying its message), and whether a quarantine
rename, if one is triggered, succeeds. -/
instance {ε α : Type} [DecidableEq ε] [DecidableEq α] :
    DecidableEq (Except ε α) := fun x y =>
  match x, y with
  | .ok a, .ok b =>
    if h : a = b then isTrue (h ▸ rfl)
    else isFalse (fun hc => h (Except.ok.inj hc))
  | .error a, .error b =>
    if h : a = b then isTrue (h ▸ rfl)
    else isFalse (fun hc => h (Except.error.inj hc))
  | .ok _, .error _ => isFalse (fun hc => Except.noConfusion hc)
  | .error _, .ok _ => isFalse (fun hc => Except.noConfusion hc)

structure PipeEnv where
  file_exists : Bool
  outcome : Except String Unit
  rename_ok : Bool
deriving Repr, DecidableEq

/-- `_process_audio_file` (`main.py` lines 282-346).  On success the file
name joins `processed_files` and any failure record is dropped; on an
exception the attempt count is incremented, the error text stored, and on
reaching `max_retry_attempts` the file is moved to the error directory. -/
def process_audio_file (now : Nat) (env : PipeEnv) (p : FPath)
    (s : HandlerState) : HandlerState :=
  let s := { s with pipeline_calls := s.pipeline_calls ++ [p.str] }
  if ¬ env.file_exists then s
  else
    match env.outcome with
    | .ok _ =>
      { s with
        processed_files := insertName p.name s.processed_files
        failed_counts := eraseKey p.str s.failed_counts
        failed_errors := eraseKey p.str s.failed_errors }
    | .error msg =>
      let n := (lookupKey p.str s.failed_counts).getD 0 + 1
      let s := { s with
        failed_counts := setKey p.str n s.failed_counts
        failed_errors := setKey p.str msg s.failed_errors }
      if max_retry_attempts ≤ n then move_to_error_dir now env.rename_ok p s
      else s

/-- The tracking registration of `start_monitoring_file` (`main.py` lines
224-231): if the path is not already tracked, stat it and record the
initial `FileInfo`; a raising stat is caught and leaves the state alone. -/
def track_if_new (now : Nat) (stat_size : Option Nat) (p : FPath)
    (s : HandlerState) : HandlerState :=
  if fipHasKey s.files_in_progress p.str then s
  else
    match stat_size with
    | some size =>
      { s with files_in_progress := s.files_in_progress ++
          [(p, { first_seen_time := now, last_check_time := now,
                 last_size := size, last_stable_time := now })] }
    | none => s

/-- `start_monitoring_file` (`main.py` lines 209-234).  `stat_size` is the
result of `file_path.stat().st_size` (`none` when the stat raises, caught
by the surrounding `except`). -/
def start_monitoring_file (now : Nat) (stat_size : Option Nat)
    (rename_ok : Bool) (p : FPath) (s : HandlerState) : HandlerState :=
  match lookupKey p.str s.failed_counts with
  | some attempts =>
    if max_retry_attempts ≤ attempts then move_to_error_dir now rename_ok p s
    else track_if_new now stat_size p s
  | none => track_if_new now stat_size p s

/-- `on_created` (`main.py` lines 191-207). -/
def on_created (now : Nat) (is_directory : Bool) (stat_size : Option Nat)
    (rename_ok : Bool) (p : FPath) (s : HandlerState) : HandlerState :=
  if is_directory then s
  else if audio_exts.contains (pyLower p.suffix) then
    if s.processed_files.contains p.name then s
    else start_monitoring_file now stat_size rename_ok p s
  else s

/-- What one stability check observes about a tracked path (`main.py` lines
156-160): the path has vanished, the path exists with a current size, or
the existence/stat call itself raised. -/
inductive FileObs where
  | vanished
  | present (size : Nat)
  | errored (msg : String)
deriving Repr, DecidableEq

/-- The per-tick external world for `check_files_in_progress`: what each
path's existence/size probe yields, and the `PipeEnv` consumed if
`_process_audio_file` is called for it. -/
structure TickEnv where
  obs : String → FileObs
  pipe : String → PipeEnv

/-- Accumulator of the loop in `check_files_in_progress`: handler state,
the (order-preserving, in-place-updated) tracking entries, and
`files_to_remove`. -/
structure TickAcc where
  st : HandlerState
  entries : List (FPath × FileInfo)
  toRemove : List String

/-- One iteration of the loop in `check_files_in_progress`
(`main.py` lines 154-185), for the entry `(p, info)`. -/
def checkOne (env : TickEnv) (now : Nat) (acc : TickAcc)
    (e : FPath × FileInfo) : TickAcc :=
  match env.obs e.1.str with
  | .vanished =>
    { acc with entries := acc.entries ++ [e], toRemove := acc.toRemove ++ [e.1.str] }
  | .errored _ =>
    { acc with entries := acc.entries ++ [e], toRemove := acc.toRemove ++ [e.1.str] }
  | .present size =>
    if size ≠ e.2.last_size then
      { acc with entries := acc.entries ++
          [(e.1, { e.2 with last_size := size, last_stable_time := now, last_check_time := now })] }
    else if required_stable_time ≤ now - e.2.last_stable_time then
      { st := process_audio_file now (env.pipe e.1.str) e.1 acc.st
        entries := acc.entries ++ [(e.1, { e.2 with last_check_time := now })]
        toRemove := acc.toRemove ++ [e.1.str] }
    else if max_wait_time ≤ now - e.2.first_seen_time then
      { st := process_audio_file now (env.pipe e.1.str) e.1 acc.st
        entries := acc.entries ++ [(e.1, { e.2 with last_check_time := now })]
        toRemove := acc.toRemove ++ [e.1.str] }
    else
      { acc with entries := acc.entries ++
          [(e.1, { e.2 with last_check_time := now })] }

/-- `check_files_in_progress` (`main.py` lines 149-189): each tracked entry
is checked in insertion order, then the collected `files_to_remove` keys are
popped. -/
def check_files_in_progress (env : TickEnv) (now : Nat)
    (s : HandlerState) : HandlerState :=
  let acc := s.files_in_progress.foldl (checkOne env now)
    { st := s, entries := [], toRemove := [] }
  { acc.st with files_in_progress :=
      acc.entries.filter (fun e => ! acc.toRemove.contains e.1.str) }

/-- A directory entry seen by `scan_directory`'s glob (`main.py` lines
357-359), with the data its filters consult. -/
structure DirEntry where
  path : FPath
  is_file : Bool
  in_error_dir : Bool
deriving Repr, DecidableEq

/-- External inputs of `scan_directory`: whether `WATCH_FOLDER` is set and
exists, the directory listing, and the per-path stat / rename oracles
consumed by `start_monitoring_file`. -/
structure ScanEnv where
  watch_ok : Bool
  listing : List DirEntry
  statOf : String → Option Nat
  renameOf : String → Bool

/-- The filter applied by `scan_directory`'s glob comprehension
(`main.py` lines 357-359). -/
def scan_filter (e : DirEntry) : Bool :=
  !e.in_error_dir && e.is_file && audio_exts.contains (pyLower e.path.suffix)

/-- The body of `scan_directory`'s registration loop (`main.py` lines
363-367). -/
def scan_register (now : Nat) (env : ScanEnv) (st : HandlerState)
    (e : DirEntry) : HandlerState :=
  if ¬ st.processed_files.contains e.path.name ∧
      ¬ fipHasKey st.files_in_progress e.path.str then
    start_monitoring_file now (env.statOf e.path.str)
      (env.renameOf e.path.str) e.path st
  else st

/-- `scan_directory` (`main.py` lines 348-374): filter the listing to audio
files outside the error directory; register each one that is neither
processed nor already tracked; report whether any audio file was present. -/
def scan_directory (now : Nat) (env : ScanEnv) (s : HandlerState) :
    HandlerState × Bool :=
  if ¬ env.watch_ok then (s, false)
  else if (env.listing.filter scan_filter).isEmpty then (s, false)
  else ((env.listing.filter scan_filter).foldl (scan_register now env) s, true)

/-- The hourly health block of `check_health` (`main.py` lines 102-122):
when the health interval has elapsed, clear `processed_files` if it exceeds
its cap, then probe/reinitialize Ollama and garbage-collect — steps without
modelled state, summarized by `rest_ok`; if any of them raises,
`last_health_check` is not advanced (the `except` branch). -/
def health_block (now : Nat) (rest_ok : Bool) (s : HandlerState) :
    HandlerState :=
  if health_check_interval ≤ now - s.last_health_check then
    let s1 := if max_processed_files < s.processed_files.length
      then { s with processed_files := [] } else s
    if rest_ok then { s1 with last_health_check := now } else s1
  else s

/-- External inputs of a full `check_health` call. -/
structure HealthEnv where
  rest_ok : Bool
  scanEnv : ScanEnv
  tick : TickEnv

/-- `check_health` (`main.py` lines 100-139): the hourly health block, then
the periodic directory scan, then the stability checks for tracked files. -/
def check_health (now : Nat) (env : HealthEnv) (s : HandlerState) :
    HandlerState :=
  let s1 := health_block now env.rest_ok s
  let s2 :=
    if directory_scan_interval ≤ now - s1.last_directory_scan then
      { (scan_directory now env.scanEnv s1).1 with last_directory_scan := now }
    else s1
  if s2.files_in_progress.isEmpty then s2
  else check_files_in_progress env.tick now s2

/-! ### Sanity checks of the embedding on concrete runs -/

/-- An empty handler state (fresh start, all clocks at 0). -/
def emptyState : HandlerState :=
  { processed_files := [], failed_counts := [], failed_errors := [],
    files_in_progress := [], quarantined := [], last_health_check := 0,
    last_directory_scan := 0, pipeline_calls := [] }

def samplePath : FPath := { dir := "watch", stem := "sample", suffix := ".wav" }

def sampleTracked : HandlerState :=
  { emptyState with files_in_progress :=
      [(samplePath, { first_seen_time := 0, last_check_time := 0,
                      last_size := 5, last_stable_time := 0 })] }

def okPipe : PipeEnv := { file_exists := true, outcome := .ok (), rename_ok := true }

example :
    check_files_in_progress
      { obs := fun _ => .present 5, pipe := fun _ => okPipe } 4 sampleTracked
    = { emptyState with processed_files := ["sample.wav"], pipeline_calls := ["watch/sample.wav"] } := by
  decide

example :
    check_files_in_progress
      { obs := fun _ => .present 6, pipe := fun _ => okPipe } 2 sampleTracked
    = { emptyState with files_in_progress :=
        [(samplePath, { first_seen_time := 0, last_check_time := 2,
                        last_size := 6, last_stable_time := 2 })] } := by decide

example :
    check_files_in_progress
      { obs := fun _ => .vanished, pipe := fun _ => okPipe } 2 sampleTracked
    = emptyState := by decide

example :
    on_created 7 false (some 3) true samplePath emptyState
    = { emptyState with files_in_progress :=
        [(samplePath, { first_seen_time := 7, last_check_time := 7,
                        last_size := 3, last_stable_time := 7 })] } := by decide

example :
    on_created 7 false (some 3) true
      { dir := "watch", stem := "notes", suffix := ".txt" } emptyState
    = emptyState := by decide

/-! ## Lemmas about the association-list helpers -/

theorem lookupKey_setKey_self {α : Type} (k : String) (v : α) :
    ∀ l, lookupKey k (setKey k v l) = some v := by
  intro l
  induction l with
  | nil => simp [setKey, lookupKey]
  | cons e rest ih =>
    obtain ⟨a, b⟩ := e
    by_cases h : a = k
    · simp [setKey, lookupKey, h]
    · simp [setKey, lookupKey, h, ih]

theorem lookupKey_setKey_ne {α : Type} {k k' : String} (h : k' ≠ k) (v : α) :
    ∀ l, lookupKey k (setKey k' v l) = lookupKey k l := by
  intro l
  induction l with
  | nil => simp [setKey, lookupKey, h]
  | cons e rest ih =>
    obtain ⟨a, b⟩ := e
    by_cases h2 : a = k'
    · subst h2; simp [setKey, lookupKey, h]
    · simp [setKey, lookupKey, h2, ih]

theorem lookupKey_eraseKey_self {α : Type} (k : String) :
    ∀ l : List (String × α), lookupKey k (eraseKey k l) = none := by
  intro l
  induction l with
  | nil => simp [eraseKey, lookupKey]
  | cons e rest ih =>
    obtain ⟨a, b⟩ := e
    by_cases h : a = k <;> simp [eraseKey, lookupKey, h, ih]

theorem lookupKey_eraseKey_ne {α : Type} {k k' : String} (h : k' ≠ k) :
    ∀ l : List (String × α), lookupKey k (eraseKey k' l) = lookupKey k l := by
  intro l
  induction l with
  | nil => simp [eraseKey, lookupKey]
  | cons e rest ih =>
    obtain ⟨a, b⟩ := e
    by_cases h2 : a = k'
    · subst h2
      simp [eraseKey, lookupKey, h, ih]
    · simp [eraseKey, lookupKey, h2, ih]

/-! ## Lemmas about the orchestrator steps -/

theorem move_to_error_dir_calls (now : Nat) (ok : Bool) (p : FPath) (s : HandlerState) :
    (move_to_error_dir now ok p s).pipeline_calls = s.pipeline_calls := by
  cases ok <;> simp [move_to_error_dir]

theorem move_to_error_dir_fip (now : Nat) (ok : Bool) (p : FPath) (s : HandlerState) :
    (move_to_error_dir now ok p s).files_in_progress = s.files_in_progress := by
  cases ok <;> simp [move_to_error_dir]

theorem move_to_error_dir_processed (now : Nat) (ok : Bool) (p : FPath) (s : HandlerState) :
    (move_to_error_dir now ok p s).processed_files = s.processed_files := by
  cases ok <;> simp [move_to_error_dir]

theorem move_to_error_dir_counts_ne {k : String} {p : FPath} (h : p.str ≠ k)
    (now : Nat) (ok : Bool) (s : HandlerState) :
    lookupKey k (move_to_error_dir now ok p s).failed_counts
      = lookupKey k s.failed_counts := by
  cases ok <;> simp [move_to_error_dir, lookupKey_eraseKey_ne h]

theorem move_to_error_dir_errors_ne {k : String} {p : FPath} (h : p.str ≠ k)
    (now : Nat) (ok : Bool) (s : HandlerState) :
    lookupKey k (move_to_error_dir now ok p s).failed_errors
      = lookupKey k s.failed_errors := by
  cases ok <;> simp [move_to_error_dir, lookupKey_eraseKey_ne h]

theorem process_audio_file_calls (now : Nat) (env : PipeEnv) (p : FPath)
    (s : HandlerState) :
    (process_audio_file now env p s).pipeline_calls
      = s.pipeline_calls ++ [p.str] := by
  obtain ⟨fe, oc, ro⟩ := env
  cases fe
  · simp [process_audio_file]
  · cases oc with
    | ok u => simp [process_audio_file]
    | error m =>
      by_cases h3 : max_retry_attempts ≤ (lookupKey p.str s.failed_counts).getD 0 + 1
      · simp [process_audio_file, h3, move_to_error_dir_calls]
      · simp [process_audio_file, h3]

theorem process_audio_file_fip (now : Nat) (env : PipeEnv) (p : FPath)
    (s : HandlerState) :
    (process_audio_file now env p s).files_in_progress
      = s.files_in_progress := by
  obtain ⟨fe, oc, ro⟩ := env
  cases fe
  · simp [process_audio_file]
  · cases oc with
    | ok u => simp [process_audio_file]
    | error m =>
      by_cases h3 : max_retry_attempts ≤ (lookupKey p.str s.failed_counts).getD 0 + 1
      · simp [process_audio_file, h3, move_to_error_dir_fip]
      · simp [process_audio_file, h3]

theorem process_audio_file_counts_ne {k : String} {p : FPath} (h : p.str ≠ k)
    (now : Nat) (env : PipeEnv) (s : HandlerState) :
    lookupKey k (process_audio_file now env p s).failed_counts
      = lookupKey k s.failed_counts := by
  obtain ⟨fe, oc, ro⟩ := env
  cases fe
  · simp [process_audio_file]
  · cases oc with
    | ok u => simp [process_audio_file, lookupKey_eraseKey_ne h]
    | error m =>
      by_cases h3 : max_retry_attempts ≤ (lookupKey p.str s.failed_counts).getD 0 + 1
      · simp [process_audio_file, h3, move_to_error_dir_counts_ne h,
          lookupKey_setKey_ne h]
      · simp [process_audio_file, h3, lookupKey_setKey_ne h]

theorem process_audio_file_errors_ne {k : String} {p : FPath} (h : p.str ≠ k)
    (now : Nat) (env : PipeEnv) (s : HandlerState) :
    lookupKey k (process_audio_file now env p s).failed_errors
      = lookupKey k s.failed_errors := by
  obtain ⟨fe, oc, ro⟩ := env
  cases fe
  · simp [process_audio_file]
  · cases oc with
    | ok u => simp [process_audio_file, lookupKey_eraseKey_ne h]
    | error m =>
      by_cases h3 : max_retry_attempts ≤ (lookupKey p.str s.failed_counts).getD 0 + 1
      · simp [process_audio_file, h3, move_to_error_dir_errors_ne h,
          lookupKey_setKey_ne h]
      · simp [process_audio_file, h3, lookupKey_setKey_ne h]

/-- A failing pipeline call that does not yet exhaust the retry budget:
the count becomes `old + 1`, the error text is stored, nothing is
quarantined. -/
theorem process_audio_file_failure_records {msg : String} {env : PipeEnv}
    (now : Nat) (p : FPath) (s : HandlerState)
    (hex : env.file_exists = true) (hout : env.outcome = .error msg)
    (hlt : (lookupKey p.str s.failed_counts).getD 0 + 1 < max_retry_attempts) :
    lookupKey p.str (process_audio_file now env p s).failed_counts
        = some ((lookupKey p.str s.failed_counts).getD 0 + 1)
    ∧ lookupKey p.str (process_audio_file now env p s).failed_errors = some msg
    ∧ (process_audio_file now env p s).quarantined = s.quarantined := by
  obtain ⟨fe, oc, ro⟩ := env
  simp only at hex hout
  subst hex hout
  simp [process_audio_file, Nat.not_le.mpr hlt, lookupKey_setKey_self]

/-- A failing pipeline call that exhausts the retry budget with a working
rename: the retry record is erased and a sidecar carrying `old + 1`
attempts and the error text is appended to the quarantine area. -/
theorem process_audio_file_failure_quarantines {msg : String} {env : PipeEnv}
    (now : Nat) (p : FPath) (s : HandlerState)
    (hex : env.file_exists = true) (hout : env.outcome = .error msg)
    (hok : env.rename_ok = true)
    (hge : max_retry_attempts ≤ (lookupKey p.str s.failed_counts).getD 0 + 1) :
    lookupKey p.str (process_audio_file now env p s).failed_counts = none
    ∧ lookupKey p.str (process_audio_file now env p s).failed_errors = none
    ∧ ∃ ename, (process_audio_file now env p s).quarantined
        = s.quarantined ++ [(ename,
            { original_path := p.str, first_error_time := now,
              attempts := (lookupKey p.str s.failed_counts).getD 0 + 1,
              last_error := msg })] := by
  obtain ⟨fe, oc, ro⟩ := env
  simp only at hex hout hok
  subst hex hout hok
  refine ⟨?_, ?_, ?_⟩
  · simp [process_audio_file, hge, move_to_error_dir, lookupKey_eraseKey_self]
  · simp [process_audio_file, hge, move_to_error_dir, lookupKey_eraseKey_self]
  · refine ⟨if (List.map (fun e => e.1) s.quarantined).contains p.name
        then p.stem ++ "_" ++ toString now ++ p.suffix else p.name, ?_⟩
    simp [process_audio_file, hge, move_to_error_dir, lookupKey_setKey_self]

/-! ## Lemmas about one stability-check iteration (`checkOne`) -/

/-- The path keys of a tracking list. -/
def keysOf (l : List (FPath × FileInfo)) : List String :=
  l.map (fun e => e.1.str)

theorem checkOne_calls (env : TickEnv) (now : Nat) (acc : TickAcc)
    (e : FPath × FileInfo) :
    (checkOne env now acc e).st.pipeline_calls = acc.st.pipeline_calls ∨
    (checkOne env now acc e).st.pipeline_calls
      = acc.st.pipeline_calls ++ [e.1.str] := by
  unfold checkOne
  split
  · exact Or.inl rfl
  · exact Or.inl rfl
  · split
    · exact Or.inl rfl
    · split
      · exact Or.inr (process_audio_file_calls ..)
      · split
        · exact Or.inr (process_audio_file_calls ..)
        · exact Or.inl rfl

theorem checkOne_toRemove (env : TickEnv) (now : Nat) (acc : TickAcc)
    (e : FPath × FileInfo) :
    (checkOne env now acc e).toRemove = acc.toRemove ∨
    (checkOne env now acc e).toRemove = acc.toRemove ++ [e.1.str] := by
  unfold checkOne
  split
  · exact Or.inr rfl
  · exact Or.inr rfl
  · split
    · exact Or.inl rfl
    · split
      · exact Or.inr rfl
      · split
        · exact Or.inr rfl
        · exact Or.inl rfl

theorem checkOne_entries (env : TickEnv) (now : Nat) (acc : TickAcc)
    (e : FPath × FileInfo) :
    ∃ i, (checkOne env now acc e).entries = acc.entries ++ [(e.1, i)] := by
  obtain ⟨p, info⟩ := e
  unfold checkOne
  split
  · exact ⟨info, rfl⟩
  · exact ⟨info, rfl⟩
  · split
    · exact ⟨_, rfl⟩
    · split
      · exact ⟨_, rfl⟩
      · split
        · exact ⟨_, rfl⟩
        · exact ⟨_, rfl⟩

theorem checkOne_st_fip (env : TickEnv) (now : Nat) (acc : TickAcc)
    (e : FPath × FileInfo) :
    (checkOne env now acc e).st.files_in_progress
      = acc.st.files_in_progress := by
  unfold checkOne
  split
  · rfl
  · rfl
  · split
    · rfl
    · split
      · exact process_audio_file_fip ..
      · split
        · exact process_audio_file_fip ..
        · rfl

theorem checkOne_counts_ne {k : String} {e : FPath × FileInfo}
    (h : e.1.str ≠ k) (env : TickEnv) (now : Nat) (acc : TickAcc) :
    lookupKey k (checkOne env now acc e).st.failed_counts
      = lookupKey k acc.st.failed_counts := by
  unfold checkOne
  split
  · rfl
  · rfl
  · split
    · rfl
    · split
      · exact process_audio_file_counts_ne h ..
      · split
        · exact process_audio_file_counts_ne h ..
        · rfl

theorem checkOne_errors_ne {k : String} {e : FPath × FileInfo}
    (h : e.1.str ≠ k) (env : TickEnv) (now : Nat) (acc : TickAcc) :
    lookupKey k (checkOne env now acc e).st.failed_errors
      = lookupKey k acc.st.failed_errors := by
  unfold checkOne
  split
  · rfl
  · rfl
  · split
    · rfl
    · split
      · exact process_audio_file_errors_ne h ..
      · split
        · exact process_audio_file_errors_ne h ..
        · rfl

/-- Stable branch (`main.py` lines 170-174): unchanged size and the stable
duration elapsed means the file is processed and scheduled for removal. -/
theorem checkOne_stable {env : TickEnv} {now : Nat} {p : FPath}
    {info : FileInfo} (acc : TickAcc)
    (hobs : env.obs p.str = .present info.last_size)
    (hst : required_stable_time ≤ now - info.last_stable_time) :
    (checkOne env now acc (p, info)).st
        = process_audio_file now (env.pipe p.str) p acc.st
    ∧ (checkOne env now acc (p, info)).toRemove = acc.toRemove ++ [p.str] := by
  unfold checkOne
  rw [hobs]
  simp [hst]

/-- Forced branch (`main.py` lines 175-179): unchanged size, stable
duration not yet reached, but the maximum wait exceeded — processed and
scheduled for removal. -/
theorem checkOne_forced {env : TickEnv} {now : Nat} {p : FPath}
    {info : FileInfo} (acc : TickAcc)
    (hobs : env.obs p.str = .present info.last_size)
    (hst : now - info.last_stable_time < required_stable_time)
    (hw : max_wait_time ≤ now - info.first_seen_time) :
    (checkOne env now acc (p, info)).st
        = process_audio_file now (env.pipe p.str) p acc.st
    ∧ (checkOne env now acc (p, info)).toRemove = acc.toRemove ++ [p.str] := by
  unfold checkOne
  rw [hobs]
  simp [Nat.not_le.mpr hst, hw]

/-- Size-changed branch (`main.py` lines 167-169): the entry is refreshed
and kept; nothing is processed, even when the maximum wait has elapsed. -/
theorem checkOne_changed {env : TickEnv} {now : Nat} {p : FPath}
    {info : FileInfo} {sz : Nat} (acc : TickAcc)
    (hobs : env.obs p.str = .present sz) (hne : sz ≠ info.last_size) :
    (checkOne env now acc (p, info)).st = acc.st
    ∧ (checkOne env now acc (p, info)).toRemove = acc.toRemove
    ∧ (checkOne env now acc (p, info)).entries = acc.entries ++
        [(p, { info with last_size := sz, last_stable_time := now, last_check_time := now })] := by
  unfold checkOne
  rw [hobs]
  simp [hne]

/-- Exception branch (`main.py` lines 183-185): a raising probe only logs
and schedules removal; the handler state (in particular the retry ledger)
is untouched. -/
theorem checkOne_errored {env : TickEnv} {now : Nat} {p : FPath}
    {info : FileInfo} {msg : String} (acc : TickAcc)
    (hobs : env.obs p.str = .errored msg) :
    (checkOne env now acc (p, info)).st = acc.st
    ∧ (checkOne env now acc (p, info)).toRemove = acc.toRemove ++ [p.str] := by
  unfold checkOne
  rw [hobs]
  simp

/-- Vanished branch (`main.py` lines 156-158). -/
theorem checkOne_vanished {env : TickEnv} {now : Nat} {p : FPath}
    {info : FileInfo} (acc : TickAcc)
    (hobs : env.obs p.str = .vanished) :
    (checkOne env now acc (p, info)).st = acc.st
    ∧ (checkOne env now acc (p, info)).toRemove = acc.toRemove ++ [p.str] := by
  unfold checkOne
  rw [hobs]
  simp

/-! ## Lemmas about the whole loop of `check_files_in_progress` -/

theorem foldl_checkOne_calls (env : TickEnv) (now : Nat) :
    ∀ (l : List (FPath × FileInfo)) (acc : TickAcc),
      ∃ t, (l.foldl (checkOne env now) acc).st.pipeline_calls
          = acc.st.pipeline_calls ++ t ∧ t.Sublist (keysOf l) := by
  intro l
  induction l with
  | nil => exact fun acc => ⟨[], by simp, by simp [keysOf]⟩
  | cons e l ih =>
    intro acc
    obtain ⟨t, ht, hsub⟩ := ih (checkOne env now acc e)
    rcases checkOne_calls env now acc e with h | h
    · refine ⟨t, ?_, ?_⟩
      · rw [List.foldl_cons, ht, h]
      · simpa [keysOf] using hsub.cons e.1.str
    · refine ⟨e.1.str :: t, ?_, ?_⟩
      · rw [List.foldl_cons, ht, h]; simp
      · simpa [keysOf] using hsub.cons₂ e.1.str

theorem foldl_checkOne_toRemove (env : TickEnv) (now : Nat) :
    ∀ (l : List (FPath × FileInfo)) (acc : TickAcc),
      ∃ t, (l.foldl (checkOne env now) acc).toRemove
          = acc.toRemove ++ t ∧ t.Sublist (keysOf l) := by
  intro l
  induction l with
  | nil => exact fun acc => ⟨[], by simp, by simp [keysOf]⟩
  | cons e l ih =>
    intro acc
    obtain ⟨t, ht, hsub⟩ := ih (checkOne env now acc e)
    rcases checkOne_toRemove env now acc e with h | h
    · refine ⟨t, ?_, ?_⟩
      · rw [List.foldl_cons, ht, h]
      · simpa [keysOf] using hsub.cons e.1.str
    · refine ⟨e.1.str :: t, ?_, ?_⟩
      · rw [List.foldl_cons, ht, h]; simp
      · simpa [keysOf] using hsub.cons₂ e.1.str

theorem foldl_checkOne_entries (env : TickEnv) (now : Nat) :
    ∀ (l : List (FPath × FileInfo)) (acc : TickAcc),
      keysOf (l.foldl (checkOne env now) acc).entries
        = keysOf acc.entries ++ keysOf l := by
  intro l
  induction l with
  | nil => simp [keysOf]
  | cons e l ih =>
    intro acc
    obtain ⟨i, hi⟩ := checkOne_entries env now acc e
    rw [List.foldl_cons, ih (checkOne env now acc e), hi]
    simp [keysOf]

theorem foldl_checkOne_fip (env : TickEnv) (now : Nat) :
    ∀ (l : List (FPath × FileInfo)) (acc : TickAcc),
      (l.foldl (checkOne env now) acc).st.files_in_progress
        = acc.st.files_in_progress := by
  intro l
  induction l with
  | nil => intro acc; rfl
  | cons e l ih =>
    intro acc
    rw [List.foldl_cons, ih (checkOne env now acc e), checkOne_st_fip]

theorem foldl_checkOne_counts_ne (env : TickEnv) (now : Nat) {k : String} :
    ∀ (l : List (FPath × FileInfo)) (acc : TickAcc),
      (∀ e ∈ l, e.1.str ≠ k) →
      lookupKey k (l.foldl (checkOne env now) acc).st.failed_counts
        = lookupKey k acc.st.failed_counts := by
  intro l
  induction l with
  | nil => intro acc _; rfl
  | cons e l ih =>
    intro acc hne
    rw [List.foldl_cons, ih (checkOne env now acc e)
      (fun x hx => hne x (List.mem_cons_of_mem e hx))]
    exact checkOne_counts_ne (hne e (List.mem_cons_self e l)) env now acc

theorem foldl_checkOne_errors_ne (env : TickEnv) (now : Nat) {k : String} :
    ∀ (l : List (FPath × FileInfo)) (acc : TickAcc),
      (∀ e ∈ l, e.1.str ≠ k) →
      lookupKey k (l.foldl (checkOne env now) acc).st.failed_errors
        = lookupKey k acc.st.failed_errors := by
  intro l
  induction l with
  | nil => intro acc _; rfl
  | cons e l ih =>
    intro acc hne
    rw [List.foldl_cons, ih (checkOne env now acc e)
      (fun x hx => hne x (List.mem_cons_of_mem e hx))]
    exact checkOne_errors_ne (hne e (List.mem_cons_self e l)) env now acc

/-- Every key scheduled for removal is absent from the filtered tracking
list that `check_files_in_progress` installs. -/
theorem fipHasKey_filter_removed {rem : List String} {k : String}
    (h : rem.contains k = true) (entries : List (FPath × FileInfo)) :
    fipHasKey (entries.filter (fun e => ! rem.contains e.1.str)) k = false := by
  induction entries with
  | nil => rfl
  | cons e l ih =>
    rw [List.filter_cons]
    cases hk : rem.contains e.1.str
    · have hne : e.1.str ≠ k := fun hc => by
        rw [hc, h] at hk; exact Bool.noConfusion hk
      rw [if_pos (by rfl)]
      simp only [fipHasKey, List.any_cons]
      rw [decide_eq_false hne, Bool.false_or]
      exact ih
    · rw [if_neg (by simp)]
      exact ih

/-- A key not scheduled for removal survives the filter whenever some entry
carries it. -/
theorem fipHasKey_filter_kept {rem : List String} {k : String}
    (h : rem.contains k = false) :
    ∀ entries : List (FPath × FileInfo), k ∈ keysOf entries →
    fipHasKey (entries.filter (fun e => ! rem.contains e.1.str)) k = true := by
  intro entries
  induction entries with
  | nil => intro hm; simp [keysOf] at hm
  | cons e l ih =>
    intro hmem
    rw [List.filter_cons]
    by_cases hk : e.1.str = k
    · rw [if_pos (by rw [hk, h]; rfl)]
      simp only [fipHasKey, List.any_cons]
      rw [decide_eq_true hk, Bool.true_or]
    · have hmem' : k ∈ keysOf l := by
        simp only [keysOf, List.map_cons, List.mem_cons] at hmem
        rcases hmem with h1 | h1
        · exact absurd h1.symm hk
        · simpa [keysOf] using h1
      cases hcont : rem.contains e.1.str
      · rw [if_pos (by rfl)]
        simp only [fipHasKey, List.any_cons]
        rw [decide_eq_false hk, Bool.false_or]
        exact ih hmem'
      · rw [if_neg (by simp)]
        exact ih hmem'

/-- Splitting a duplicate-free key list at a distinguished entry. -/
theorem keysOf_nodup_split {l1 l2 : List (FPath × FileInfo)}
    {a : FPath × FileInfo} (h : (keysOf (l1 ++ a :: l2)).Nodup) :
    a.1.str ∉ keysOf l1 ∧ a.1.str ∉ keysOf l2 := by
  have h2 : keysOf (l1 ++ a :: l2) = keysOf l1 ++ a.1.str :: keysOf l2 := by
    simp [keysOf]
  rw [h2] at h
  obtain ⟨-, h3, h4⟩ := List.nodup_append.mp h
  refine ⟨fun hc => ?_, (List.nodup_cons.mp h3).1⟩
  exact (h4 hc) (List.mem_cons_self _ _)

theorem count_eq_zero_of_sublist {t keys : List String} {k : String}
    (hsub : t.Sublist keys) (h : k ∉ keys) : t.count k = 0 :=
  List.count_eq_zero.mpr (fun hk => h (hsub.subset hk))

theorem contains_eq_true_of_mem {l : List String} {k : String} (h : k ∈ l) :
    l.contains k = true := by
  simpa using h

theorem contains_eq_false_of_not_mem {l : List String} {k : String}
    (h : k ∉ l) : l.contains k = false := by
  simpa using h

/-- Splitting the tracked list at a distinguished entry that the current
check admits (its `checkOne` branch calls `_process_audio_file` and
schedules removal): the tick invokes the pipeline for it exactly once more,
drops it from tracking, and its retry-ledger entries after the tick are
exactly those the pipeline call produces from a state `st1` that agrees
with `s` on this path's ledger entries. -/
theorem tick_admits_entry (env : TickEnv) (now : Nat) (s : HandlerState)
    {p : FPath} {info : FileInfo} {l1 l2 : List (FPath × FileInfo)}
    (hsplit : s.files_in_progress = l1 ++ (p, info) :: l2)
    (hnd : (keysOf s.files_in_progress).Nodup)
    (hbranch : ∀ acc : TickAcc,
      (checkOne env now acc (p, info)).st
          = process_audio_file now (env.pipe p.str) p acc.st
      ∧ (checkOne env now acc (p, info)).toRemove = acc.toRemove ++ [p.str]) :
    ∃ st1 : HandlerState,
      lookupKey p.str st1.failed_counts = lookupKey p.str s.failed_counts
      ∧ lookupKey p.str st1.failed_errors = lookupKey p.str s.failed_errors
      ∧ lookupKey p.str (check_files_in_progress env now s).failed_counts
          = lookupKey p.str
              (process_audio_file now (env.pipe p.str) p st1).failed_counts
      ∧ lookupKey p.str (check_files_in_progress env now s).failed_errors
          = lookupKey p.str
              (process_audio_file now (env.pipe p.str) p st1).failed_errors
      ∧ (check_files_in_progress env now s).pipeline_calls.count p.str
          = s.pipeline_calls.count p.str + 1
      ∧ fipHasKey (check_files_in_progress env now s).files_in_progress p.str
          = false := by
  have hnd' : (keysOf (l1 ++ (p, info) :: l2)).Nodup := hsplit ▸ hnd
  obtain ⟨hne1, hne2⟩ :=
    keysOf_nodup_split hnd'
  have hne1' : ∀ e ∈ l1, e.1.str ≠ p.str := fun e he hc =>
    hne1 (hc ▸ List.mem_map_of_mem (fun x => x.1.str) he)
  have hne2' : ∀ e ∈ l2, e.1.str ≠ p.str := fun e he hc =>
    hne2 (hc ▸ List.mem_map_of_mem (fun x => x.1.str) he)
  set A1 := List.foldl (checkOne env now) (⟨s, [], []⟩ : TickAcc) l1 with hA1
  set A2 := checkOne env now A1 (p, info) with hA2
  set A3 := List.foldl (checkOne env now) A2 l2 with hA3
  have hcalls_eq : (check_files_in_progress env now s).pipeline_calls
      = A3.st.pipeline_calls := by
    simp only [check_files_in_progress]
    rw [hsplit, List.foldl_append, List.foldl_cons]
  have hcounts_eq : (check_files_in_progress env now s).failed_counts
      = A3.st.failed_counts := by
    simp only [check_files_in_progress]
    rw [hsplit, List.foldl_append, List.foldl_cons]
  have herrors_eq : (check_files_in_progress env now s).failed_errors
      = A3.st.failed_errors := by
    simp only [check_files_in_progress]
    rw [hsplit, List.foldl_append, List.foldl_cons]
  have hfip_eq : (check_files_in_progress env now s).files_in_progress
      = A3.entries.filter (fun e => ! A3.toRemove.contains e.1.str) := by
    simp only [check_files_in_progress]
    rw [hsplit, List.foldl_append, List.foldl_cons]
  obtain ⟨hb1, hb2⟩ := hbranch A1
  refine ⟨A1.st, ?_, ?_, ?_, ?_, ?_, ?_⟩
  · exact foldl_checkOne_counts_ne env now l1 ⟨s, [], []⟩ hne1'
  · exact foldl_checkOne_errors_ne env now l1 ⟨s, [], []⟩ hne1'
  · rw [hcounts_eq, foldl_checkOne_counts_ne env now l2 A2 hne2', hb1]
  · rw [herrors_eq, foldl_checkOne_errors_ne env now l2 A2 hne2', hb1]
  · rw [hcalls_eq]
    obtain ⟨t2, ht2, hsub2⟩ := foldl_checkOne_calls env now l2 A2
    obtain ⟨t1, ht1, hsub1⟩ := foldl_checkOne_calls env now l1 ⟨s, [], []⟩
    rw [ht2, hb1, process_audio_file_calls, ht1]
    show ((((⟨s, [], []⟩ : TickAcc).st.pipeline_calls ++ t1) ++ [p.str]) ++ t2).count p.str = _
    rw [List.count_append, List.count_append, List.count_append]
    rw [count_eq_zero_of_sublist hsub1 hne1,
        count_eq_zero_of_sublist hsub2 hne2]
    simp
  · rw [hfip_eq]
    have hmem3 : p.str ∈ A3.toRemove := by
      obtain ⟨t3, ht3, -⟩ := foldl_checkOne_toRemove env now l2 A2
      rw [ht3, hb2]
      exact List.mem_append_left _
        (List.mem_append_right _ (List.mem_singleton.mpr rfl))
    exact fipHasKey_filter_removed (contains_eq_true_of_mem hmem3) A3.entries

/-- Splitting the tracked list at a distinguished entry whose `checkOne`
branch leaves the handler state alone but schedules removal (the vanished
or exception branch): the tick does not invoke the pipeline for it, drops
it from tracking, and leaves its retry-ledger entries unchanged. -/
theorem tick_drops_entry (env : TickEnv) (now : Nat) (s : HandlerState)
    {p : FPath} {info : FileInfo} {l1 l2 : List (FPath × FileInfo)}
    (hsplit : s.files_in_progress = l1 ++ (p, info) :: l2)
    (hnd : (keysOf s.files_in_progress).Nodup)
    (hbranch : ∀ acc : TickAcc,
      (checkOne env now acc (p, info)).st = acc.st
      ∧ (checkOne env now acc (p, info)).toRemove = acc.toRemove ++ [p.str]) :
    (check_files_in_progress env now s).pipeline_calls.count p.str
        = s.pipeline_calls.count p.str
    ∧ fipHasKey (check_files_in_progress env now s).files_in_progress p.str
        = false
    ∧ lookupKey p.str (check_files_in_progress env now s).failed_counts
        = lookupKey p.str s.failed_counts
    ∧ lookupKey p.str (check_files_in_progress env now s).failed_errors
        = lookupKey p.str s.failed_errors := by
  have hnd' : (keysOf (l1 ++ (p, info) :: l2)).Nodup := hsplit ▸ hnd
  obtain ⟨hne1, hne2⟩ :=
    keysOf_nodup_split hnd'
  have hne1' : ∀ e ∈ l1, e.1.str ≠ p.str := fun e he hc =>
    hne1 (hc ▸ List.mem_map_of_mem (fun x => x.1.str) he)
  have hne2' : ∀ e ∈ l2, e.1.str ≠ p.str := fun e he hc =>
    hne2 (hc ▸ List.mem_map_of_mem (fun x => x.1.str) he)
  set A1 := List.foldl (checkOne env now) (⟨s, [], []⟩ : TickAcc) l1 with hA1
  set A2 := checkOne env now A1 (p, info) with hA2
  set A3 := List.foldl (checkOne env now) A2 l2 with hA3
  have hcalls_eq : (check_files_in_progress env now s).pipeline_calls
      = A3.st.pipeline_calls := by
    simp only [check_files_in_progress]
    rw [hsplit, List.foldl_append, List.foldl_cons]
  have hcounts_eq : (check_files_in_progress env now s).failed_counts
      = A3.st.failed_counts := by
    simp only [check_files_in_progress]
    rw [hsplit, List.foldl_append, List.foldl_cons]
  have herrors_eq : (check_files_in_progress env now s).failed_errors
      = A3.st.failed_errors := by
    simp only [check_files_in_progress]
    rw [hsplit, List.foldl_append, List.foldl_cons]
  have hfip_eq : (check_files_in_progress env now s).files_in_progress
      = A3.entries.filter (fun e => ! A3.toRemove.contains e.1.str) := by
    simp only [check_files_in_progress]
    rw [hsplit, List.foldl_append, List.foldl_cons]
  obtain ⟨hb1, hb2⟩ := hbranch A1
  refine ⟨?_, ?_, ?_, ?_⟩
  · rw [hcalls_eq]
    obtain ⟨t2, ht2, hsub2⟩ := foldl_checkOne_calls env now l2 A2
    obtain ⟨t1, ht1, hsub1⟩ := foldl_checkOne_calls env now l1 ⟨s, [], []⟩
    rw [ht2, hb1, ht1]
    show (((⟨s, [], []⟩ : TickAcc).st.pipeline_calls ++ t1) ++ t2).count p.str = _
    rw [List.count_append, List.count_append]
    rw [count_eq_zero_of_sublist hsub1 hne1,
        count_eq_zero_of_sublist hsub2 hne2]
    simp
  · rw [hfip_eq]
    have hmem3 : p.str ∈ A3.toRemove := by
      obtain ⟨t3, ht3, -⟩ := foldl_checkOne_toRemove env now l2 A2
      rw [ht3, hb2]
      exact List.mem_append_left _
        (List.mem_append_right _ (List.mem_singleton.mpr rfl))
    exact fipHasKey_filter_removed (contains_eq_true_of_mem hmem3) A3.entries
  · rw [hcounts_eq, foldl_checkOne_counts_ne env now l2 A2 hne2', hb1]
    exact foldl_checkOne_counts_ne env now l1 ⟨s, [], []⟩ hne1'
  · rw [herrors_eq, foldl_checkOne_errors_ne env now l2 A2 hne2', hb1]
    exact foldl_checkOne_errors_ne env now l1 ⟨s, [], []⟩ hne1'

/-- Splitting the tracked list at a distinguished entry whose `checkOne`
branch refreshes it without processing or removal (the size-changed
branch): the tick does not invoke the pipeline for it and keeps it
tracked. -/
theorem tick_defers_entry (env : TickEnv) (now : Nat) (s : HandlerState)
    {p : FPath} {info newInfo : FileInfo} {l1 l2 : List (FPath × FileInfo)}
    (hsplit : s.files_in_progress = l1 ++ (p, info) :: l2)
    (hnd : (keysOf s.files_in_progress).Nodup)
    (hbranch : ∀ acc : TickAcc,
      (checkOne env now acc (p, info)).st = acc.st
      ∧ (checkOne env now acc (p, info)).toRemove = acc.toRemove
      ∧ (checkOne env now acc (p, info)).entries
          = acc.entries ++ [(p, newInfo)]) :
    (check_files_in_progress env now s).pipeline_calls.count p.str
        = s.pipeline_calls.count p.str
    ∧ fipHasKey (check_files_in_progress env now s).files_in_progress p.str
        = true := by
  have hnd' : (keysOf (l1 ++ (p, info) :: l2)).Nodup := hsplit ▸ hnd
  obtain ⟨hne1, hne2⟩ :=
    keysOf_nodup_split hnd'
  set A1 := List.foldl (checkOne env now) (⟨s, [], []⟩ : TickAcc) l1 with hA1
  set A2 := checkOne env now A1 (p, info) with hA2
  set A3 := List.foldl (checkOne env now) A2 l2 with hA3
  have hcalls_eq : (check_files_in_progress env now s).pipeline_calls
      = A3.st.pipeline_calls := by
    simp only [check_files_in_progress]
    rw [hsplit, List.foldl_append, List.foldl_cons]
  have hfip_eq : (check_files_in_progress env now s).files_in_progress
      = A3.entries.filter (fun e => ! A3.toRemove.contains e.1.str) := by
    simp only [check_files_in_progress]
    rw [hsplit, List.foldl_append, List.foldl_cons]
  obtain ⟨hb1, hb2, hb3⟩ := hbranch A1
  have hrem : p.str ∉ A3.toRemove := by
    obtain ⟨t3, ht3, hsub3⟩ := foldl_checkOne_toRemove env now l2 A2
    obtain ⟨t0, ht0, hsub0⟩ := foldl_checkOne_toRemove env now l1 ⟨s, [], []⟩
    rw [ht3, hb2, ht0]
    intro hc
    rcases List.mem_append.mp hc with hc1 | hc1
    · rcases List.mem_append.mp hc1 with hc2 | hc2
      · cases hc2
      · exact hne1 (hsub0.subset hc2)
    · exact hne2 (hsub3.subset hc1)
  refine ⟨?_, ?_⟩
  · rw [hcalls_eq]
    obtain ⟨t2, ht2, hsub2⟩ := foldl_checkOne_calls env now l2 A2
    obtain ⟨t1, ht1, hsub1⟩ := foldl_checkOne_calls env now l1 ⟨s, [], []⟩
    rw [ht2, hb1, ht1]
    show (((⟨s, [], []⟩ : TickAcc).st.pipeline_calls ++ t1) ++ t2).count p.str = _
    rw [List.count_append, List.count_append]
    rw [count_eq_zero_of_sublist hsub1 hne1,
        count_eq_zero_of_sublist hsub2 hne2]
    simp
  · rw [hfip_eq]
    have hmemk : p.str ∈ keysOf A3.entries := by
      rw [foldl_checkOne_entries env now l2 A2, hb3]
      refine List.mem_append_left _ ?_
      simp [keysOf]
    exact fipHasKey_filter_kept (contains_eq_false_of_not_mem hrem)
      A3.entries hmemk

/-! ## Claim C1 -/

/-- C1: contrary to the claimed contract, `WhisperTranscriber.transcribe`
returns the cleaned transcript as a bare string for every input — never a
record carrying `text`/`language`/`segments` — while the orchestrator
(`main.py` lines 300-310) still reads `language` and `segments` off the
returned value before invoking the Content Processor, an access that
raises `AttributeError` on a string.  So the pipeline body fails for every
audio file. -/
theorem C1_transcribe_returns_string_not_record (whisper_text : String) :
    WhisperTranscriber.transcribe whisper_text
        = PyVal.pstr (WhisperTranscriber.clean_text whisper_text)
    ∧ (∀ kvs, WhisperTranscriber.transcribe whisper_text ≠ PyVal.pdict kvs)
    ∧ ∃ errmsg, orchestrator_transcription_reads
        (WhisperTranscriber.transcribe whisper_text) = .error errmsg :=
  ⟨rfl, fun _ h => PyVal.noConfusion h, ⟨_, rfl⟩⟩

/-! ## Claim C5 -/

/-- C5: a tracked candidate whose observed size equals its recorded size
and whose required-stable-duration has elapsed at a stability check is
handed to the pipeline by that check exactly once (one new
`_process_audio_file` call, whatever the other candidates and the pipeline
outcome are) and is removed from tracking. -/
theorem C5_stable_file_admitted_once (env : TickEnv) (now : Nat)
    (s : HandlerState) (p : FPath) (info : FileInfo)
    (hnd : (keysOf s.files_in_progress).Nodup)
    (hmem : (p, info) ∈ s.files_in_progress)
    (hobs : env.obs p.str = .present info.last_size)
    (hst : required_stable_time ≤ now - info.last_stable_time) :
    (check_files_in_progress env now s).pipeline_calls.count p.str
        = s.pipeline_calls.count p.str + 1
    ∧ fipHasKey (check_files_in_progress env now s).files_in_progress p.str
        = false := by
  obtain ⟨l1, l2, hsplit⟩ := List.append_of_mem hmem
  obtain ⟨st1, -, -, -, -, h5, h6⟩ := tick_admits_entry env now s hsplit hnd
    (fun acc => checkOne_stable acc hobs hst)
  exact ⟨h5, h6⟩

def stableEnv : TickEnv := { obs := fun _ => .present 5, pipe := fun _ => okPipe }

theorem C5_stable_file_admitted_once_witness :
    ((keysOf sampleTracked.files_in_progress).Nodup
      ∧ (samplePath, ⟨0, 0, 5, 0⟩) ∈ sampleTracked.files_in_progress
      ∧ stableEnv.obs samplePath.str
          = .present (FileInfo.last_size ⟨0, 0, 5, 0⟩)
      ∧ required_stable_time ≤ 4 - FileInfo.last_stable_time ⟨0, 0, 5, 0⟩)
    ∧ (check_files_in_progress stableEnv 4 sampleTracked).pipeline_calls.count
        samplePath.str = sampleTracked.pipeline_calls.count samplePath.str + 1
    ∧ fipHasKey (check_files_in_progress stableEnv 4
        sampleTracked).files_in_progress samplePath.str = false :=
  ⟨⟨by decide, by decide, rfl, by decide⟩,
   C5_stable_file_admitted_once stableEnv 4 sampleTracked samplePath
     ⟨0, 0, 5, 0⟩ (by decide) (by decide) rfl (by decide)⟩

/-! ## Claim C2 -/

/-- C2 counterexample: a candidate first observed at time 0 and checked at
time 70 (max-wait 60 long elapsed) whose size changed at this check
(11 ≠ 10) is not handed to the pipeline and stays tracked — the
size-changed branch of the `elif` chain shadows the forced-admission
branch, so the claim's "even if the file's size changed since the previous
check" fails. -/
theorem C2_counterexample_changed_size_defers :
    max_wait_time ≤ 70 - FileInfo.first_seen_time ⟨0, 69, 10, 69⟩
    ∧ (check_files_in_progress
        { obs := fun _ => .present 11, pipe := fun _ => okPipe } 70
        { emptyState with files_in_progress := [(samplePath, ⟨0, 69, 10, 69⟩)] }).pipeline_calls = []
    ∧ fipHasKey (check_files_in_progress
        { obs := fun _ => .present 11, pipe := fun _ => okPipe } 70
        { emptyState with files_in_progress := [(samplePath, ⟨0, 69, 10, 69⟩)] }).files_in_progress
        samplePath.str = true := by
  refine ⟨by decide, by decide, by decide⟩

/-- C2 amended: once max-wait-duration has elapsed for a tracked candidate,
a stability check force-admits it (one pipeline call, removed from
tracking) only when the observed size equals the recorded size at that
check while the stable duration has not yet elapsed; when the size changed
at that check the candidate is not admitted and stays tracked, so a file
whose size changes at every check is deferred indefinitely. -/
theorem C2_amended_forced_admission_requires_unchanged_size
    (env : TickEnv) (now : Nat) (s : HandlerState) (p : FPath)
    (info : FileInfo)
    (hnd : (keysOf s.files_in_progress).Nodup)
    (hmem : (p, info) ∈ s.files_in_progress)
    (hw : max_wait_time ≤ now - info.first_seen_time) :
    (env.obs p.str = .present info.last_size →
      now - info.last_stable_time < required_stable_time →
      (check_files_in_progress env now s).pipeline_calls.count p.str
          = s.pipeline_calls.count p.str + 1
      ∧ fipHasKey (check_files_in_progress env now s).files_in_progress p.str
          = false)
    ∧ (∀ sz, env.obs p.str = .present sz → sz ≠ info.last_size →
      (check_files_in_progress env now s).pipeline_calls.count p.str
          = s.pipeline_calls.count p.str
      ∧ fipHasKey (check_files_in_progress env now s).files_in_progress p.str
          = true) := by
  obtain ⟨l1, l2, hsplit⟩ := List.append_of_mem hmem
  constructor
  · intro hobs hst
    obtain ⟨st1, -, -, -, -, h5, h6⟩ := tick_admits_entry env now s hsplit hnd
      (fun acc => checkOne_forced acc hobs hst hw)
    exact ⟨h5, h6⟩
  · intro sz hobs hne
    exact tick_defers_entry env now s hsplit hnd
      (fun acc => checkOne_changed acc hobs hne)

def forcedState : HandlerState :=
  { emptyState with files_in_progress := [(samplePath, ⟨0, 69, 5, 68⟩)] }

theorem C2_amended_witness :
    ((keysOf forcedState.files_in_progress).Nodup
      ∧ (samplePath, ⟨0, 69, 5, 68⟩) ∈ forcedState.files_in_progress
      ∧ max_wait_time ≤ 70 - FileInfo.first_seen_time ⟨0, 69, 5, 68⟩
      ∧ 70 - FileInfo.last_stable_time ⟨0, 69, 5, 68⟩ < required_stable_time)
    ∧ (check_files_in_progress stableEnv 70 forcedState).pipeline_calls.count
        samplePath.str = forcedState.pipeline_calls.count samplePath.str + 1
    ∧ fipHasKey (check_files_in_progress stableEnv 70
        forcedState).files_in_progress samplePath.str = false :=
  ⟨⟨by decide, by decide, by decide, by decide⟩,
   (C2_amended_forced_admission_requires_unchanged_size stableEnv 70
     forcedState samplePath ⟨0, 69, 5, 68⟩ (by decide) (by decide)
     (by decide)).1 rfl (by decide)⟩

/-! ## Claim C6 -/

/-- C6 counterexample: two candidates, where probing the first raises and
the second is stable.  The second is still processed in the same tick (its
path is the sole pipeline call), but the first candidate's exception is
only caught, logged and its tracking dropped — `failed_counts` stays
empty, so the exception is not folded into its retry record as the claim
states. -/
theorem C6_counterexample_check_exception_not_in_ledger :
    (check_files_in_progress
      { obs := fun k => if k = "watch/a.mp3" then .errored "stat raised"
          else .present 5,
        pipe := fun _ => okPipe } 4
      { emptyState with files_in_progress :=
          [(⟨"watch", "a", ".mp3"⟩, ⟨0, 0, 4, 0⟩),
           (⟨"watch", "b", ".mp3"⟩, ⟨0, 0, 5, 0⟩)] }).pipeline_calls
      = ["watch/b.mp3"]
    ∧ (check_files_in_progress
      { obs := fun k => if k = "watch/a.mp3" then .errored "stat raised"
          else .present 5,
        pipe := fun _ => okPipe } 4
      { emptyState with files_in_progress :=
          [(⟨"watch", "a", ".mp3"⟩, ⟨0, 0, 4, 0⟩),
           (⟨"watch", "b", ".mp3"⟩, ⟨0, 0, 5, 0⟩)] }).failed_counts = []
    ∧ (check_files_in_progress
      { obs := fun k => if k = "watch/a.mp3" then .errored "stat raised"
          else .present 5,
        pipe := fun _ => okPipe } 4
      { emptyState with files_in_progress :=
          [(⟨"watch", "a", ".mp3"⟩, ⟨0, 0, 4, 0⟩),
           (⟨"watch", "b", ".mp3"⟩, ⟨0, 0, 5, 0⟩)] }).files_in_progress
      = [] := by
  refine ⟨by decide, by decide, by decide⟩

/-- C6 amended: an exception while handling one candidate never aborts the
tick — every other candidate is still checked and processed the same tick
as its own branch dictates.  A pipeline failure is caught and folded into
that candidate's retry record (count incremented, error text stored); an
exception raised by the stability probe itself is caught and only drops
the candidate from tracking, leaving its retry record untouched. -/
theorem C6_amended_tick_isolation
    (env : TickEnv) (now : Nat) (s : HandlerState)
    (pa pb : FPath) (ia ib : FileInfo) (msgA msgB : String)
    (hnd : (keysOf s.files_in_progress).Nodup)
    (hmemA : (pa, ia) ∈ s.files_in_progress)
    (hmemB : (pb, ib) ∈ s.files_in_progress)
    (hobsA : env.obs pa.str = .errored msgA)
    (hobsB : env.obs pb.str = .present ib.last_size)
    (hstB : required_stable_time ≤ now - ib.last_stable_time)
    (hpipeB : env.pipe pb.str = ⟨true, .error msgB, true⟩)
    (hlt : (lookupKey pb.str s.failed_counts).getD 0 + 1 < max_retry_attempts) :
    (check_files_in_progress env now s).pipeline_calls.count pb.str
        = s.pipeline_calls.count pb.str + 1
    ∧ lookupKey pb.str (check_files_in_progress env now s).failed_counts
        = some ((lookupKey pb.str s.failed_counts).getD 0 + 1)
    ∧ lookupKey pb.str (check_files_in_progress env now s).failed_errors
        = some msgB
    ∧ fipHasKey (check_files_in_progress env now s).files_in_progress pa.str
        = false
    ∧ lookupKey pa.str (check_files_in_progress env now s).failed_counts
        = lookupKey pa.str s.failed_counts := by
  obtain ⟨l1, l2, hsplitB⟩ := List.append_of_mem hmemB
  obtain ⟨st1, hc1, he1, hc2, he2, h5, h6⟩ := tick_admits_entry env now s
    hsplitB hnd (fun acc => checkOne_stable acc hobsB hstB)
  obtain ⟨l1a, l2a, hsplitA⟩ := List.append_of_mem hmemA
  obtain ⟨hA1, hA2, hA3, hA4⟩ := tick_drops_entry env now s hsplitA hnd
    (fun acc => checkOne_errored acc hobsA)
  have hlt' : (lookupKey pb.str st1.failed_counts).getD 0 + 1
      < max_retry_attempts := by rw [hc1]; exact hlt
  obtain ⟨hx, hy, -⟩ := process_audio_file_failure_records now pb st1
    (show PipeEnv.file_exists ⟨true, .error msgB, true⟩ = true from rfl)
    (show PipeEnv.outcome ⟨true, .error msgB, true⟩ = .error msgB from rfl)
    hlt'
  refine ⟨h5, ?_, ?_, hA2, hA3⟩
  · rw [hc2, hpipeB, hx, hc1]
  · rw [he2, hpipeB, hy]

def isolationState : HandlerState :=
  { emptyState with files_in_progress :=
      [(⟨"watch", "a", ".mp3"⟩, ⟨0, 0, 4, 0⟩),
       (⟨"watch", "b", ".mp3"⟩, ⟨0, 0, 5, 0⟩)] }

def isolationEnv : TickEnv :=
  { obs := fun k => if k = "watch/a.mp3" then .errored "stat raised"
      else .present 5,
    pipe := fun _ => ⟨true, .error "Ollama down", true⟩ }

theorem C6_amended_tick_isolation_witness :
    ((keysOf isolationState.files_in_progress).Nodup
      ∧ isolationEnv.obs "watch/a.mp3" = .errored "stat raised"
      ∧ isolationEnv.obs "watch/b.mp3" = .present 5
      ∧ (lookupKey "watch/b.mp3" isolationState.failed_counts).getD 0 + 1
          < max_retry_attempts)
    ∧ (check_files_in_progress isolationEnv 4 isolationState).pipeline_calls.count
        "watch/b.mp3"
        = isolationState.pipeline_calls.count "watch/b.mp3" + 1
    ∧ lookupKey "watch/b.mp3"
        (check_files_in_progress isolationEnv 4 isolationState).failed_counts
        = some 1
    ∧ fipHasKey (check_files_in_progress isolationEnv 4
        isolationState).files_in_progress "watch/a.mp3" = false :=
  ⟨⟨by decide, by decide, by decide, by decide⟩,
   (C6_amended_tick_isolation isolationEnv 4 isolationState
      ⟨"watch", "a", ".mp3"⟩ ⟨"watch", "b", ".mp3"⟩ ⟨0, 0, 4, 0⟩ ⟨0, 0, 5, 0⟩
      "stat raised" "Ollama down" (by decide) (by decide) (by decide)
      (by decide) rfl (by decide) rfl (by decide)).1,
   (C6_amended_tick_isolation isolationEnv 4 isolationState
      ⟨"watch", "a", ".mp3"⟩ ⟨"watch", "b", ".mp3"⟩ ⟨0, 0, 4, 0⟩ ⟨0, 0, 5, 0⟩
      "stat raised" "Ollama down" (by decide) (by decide) (by decide)
      (by decide) rfl (by decide) rfl (by decide)).2.1,
   (C6_amended_tick_isolation isolationEnv 4 isolationState
      ⟨"watch", "a", ".mp3"⟩ ⟨"watch", "b", ".mp3"⟩ ⟨0, 0, 4, 0⟩ ⟨0, 0, 5, 0⟩
      "stat raised" "Ollama down" (by decide) (by decide) (by decide)
      (by decide) rfl (by decide) rfl (by decide)).2.2.2.1⟩

/-! ## Claim C3 -/

theorem track_if_new_processed (now : Nat) (statSz : Option Nat) (p : FPath)
    (s : HandlerState) :
    (track_if_new now statSz p s).processed_files = s.processed_files := by
  unfold track_if_new
  split
  · rfl
  · cases statSz <;> rfl

theorem track_if_new_calls (now : Nat) (statSz : Option Nat) (p : FPath)
    (s : HandlerState) :
    (track_if_new now statSz p s).pipeline_calls = s.pipeline_calls := by
  unfold track_if_new
  split
  · rfl
  · cases statSz <;> rfl

theorem fipHasKey_append_ne {p : FPath} {k : String} (h : p.str ≠ k)
    (l : List (FPath × FileInfo)) (i : FileInfo) :
    fipHasKey (l ++ [(p, i)]) k = fipHasKey l k := by
  simp [fipHasKey, List.any_append, h]

theorem track_if_new_fip_ne {p : FPath} {k : String} (h : p.str ≠ k)
    (now : Nat) (statSz : Option Nat) (s : HandlerState) :
    fipHasKey (track_if_new now statSz p s).files_in_progress k
      = fipHasKey s.files_in_progress k := by
  unfold track_if_new
  split
  · rfl
  · cases statSz
    · rfl
    · exact fipHasKey_append_ne h ..

theorem start_monitoring_processed (now : Nat) (statSz : Option Nat)
    (ok : Bool) (p : FPath) (s : HandlerState) :
    (start_monitoring_file now statSz ok p s).processed_files
      = s.processed_files := by
  unfold start_monitoring_file
  split
  · split
    · exact move_to_error_dir_processed ..
    · exact track_if_new_processed ..
  · exact track_if_new_processed ..

theorem start_monitoring_calls (now : Nat) (statSz : Option Nat)
    (ok : Bool) (p : FPath) (s : HandlerState) :
    (start_monitoring_file now statSz ok p s).pipeline_calls
      = s.pipeline_calls := by
  unfold start_monitoring_file
  split
  · split
    · exact move_to_error_dir_calls ..
    · exact track_if_new_calls ..
  · exact track_if_new_calls ..

theorem start_monitoring_fip_ne {p : FPath} {k : String} (h : p.str ≠ k)
    (now : Nat) (statSz : Option Nat) (ok : Bool) (s : HandlerState) :
    fipHasKey (start_monitoring_file now statSz ok p s).files_in_progress k
      = fipHasKey s.files_in_progress k := by
  unfold start_monitoring_file
  split
  · split
    · rw [move_to_error_dir_fip]
    · exact track_if_new_fip_ne h ..
  · exact track_if_new_fip_ne h ..

/-- The registration loop of `scan_directory` (`main.py` lines 363-367)
never touches `processed_files` or the pipeline, and never registers a key
whose file name is already in `processed_files`. -/
theorem scan_fold_inv (now : Nat) (env : ScanEnv) (p : FPath) :
    ∀ (l : List DirEntry) (s : HandlerState),
      s.processed_files.contains p.name = true →
      (∀ e ∈ l, e.path.str = p.str → e.path.name = p.name) →
      (l.foldl (scan_register now env) s).processed_files = s.processed_files
      ∧ (l.foldl (scan_register now env) s).pipeline_calls = s.pipeline_calls
      ∧ fipHasKey (l.foldl (scan_register now env) s).files_in_progress p.str
          = fipHasKey s.files_in_progress p.str := by
  intro l
  induction l with
  | nil => exact fun s _ _ => ⟨rfl, rfl, rfl⟩
  | cons e l ih =>
    intro s h1 h2
    rw [List.foldl_cons]
    by_cases hg : (¬ s.processed_files.contains e.path.name ∧
        ¬ fipHasKey s.files_in_progress e.path.str)
    · have hstep : scan_register now env s e
          = start_monitoring_file now (env.statOf e.path.str)
              (env.renameOf e.path.str) e.path s := by
        unfold scan_register; rw [if_pos hg]
      rw [hstep]
      have hne : e.path.str ≠ p.str := by
        intro hc
        have hname := h2 e (List.mem_cons_self e l) hc
        rw [hname] at hg
        exact hg.1 h1
      have h1' : (start_monitoring_file now (env.statOf e.path.str)
          (env.renameOf e.path.str) e.path s).processed_files.contains p.name
          = true := by rw [start_monitoring_processed]; exact h1
      obtain ⟨ih1, ih2, ih3⟩ := ih _ h1'
        (fun x hx => h2 x (List.mem_cons_of_mem e hx))
      refine ⟨?_, ?_, ?_⟩
      · rw [ih1, start_monitoring_processed]
      · rw [ih2, start_monitoring_calls]
      · rw [ih3, start_monitoring_fip_ne hne]
    · have hstep : scan_register now env s e = s := by
        unfold scan_register; rw [if_neg hg]
      rw [hstep]
      exact ih s h1 (fun x hx => h2 x (List.mem_cons_of_mem e hx))

/-- C3: a filename already in the processed set is never re-admitted: a
creation event for it is a complete no-op, and a directory scan neither
invokes the pipeline (the scan registration path never does) nor registers
the path as a tracked candidate.  The alias hypothesis rules out two
distinct listing paths sharing the same path string. -/
theorem C3_processed_member_not_readmitted (now : Nat) (p : FPath)
    (s : HandlerState) (is_directory : Bool) (stat_size : Option Nat)
    (rename_ok : Bool) (env : ScanEnv)
    (hproc : s.processed_files.contains p.name = true)
    (halias : ∀ e ∈ env.listing, e.path.str = p.str → e.path.name = p.name) :
    on_created now is_directory stat_size rename_ok p s = s
    ∧ (scan_directory now env s).1.pipeline_calls = s.pipeline_calls
    ∧ fipHasKey (scan_directory now env s).1.files_in_progress p.str
        = fipHasKey s.files_in_progress p.str := by
  refine ⟨?_, ?_⟩
  · simp only [on_created]
    split
    · rfl
    · split <;> simp_all
  · unfold scan_directory
    split
    · exact ⟨rfl, rfl⟩
    · split
      · exact ⟨rfl, rfl⟩
      · have hsub : ∀ e ∈ env.listing.filter scan_filter,
            e.path.str = p.str → e.path.name = p.name :=
          fun e he => halias e (List.mem_of_mem_filter he)
        obtain ⟨-, h2, h3⟩ := scan_fold_inv now env p _ s hproc hsub
        exact ⟨h2, h3⟩

def processedState : HandlerState :=
  { emptyState with
    processed_files := ["sample.wav"]
    pipeline_calls := ["watch/sample.wav"] }

def rescanEnv : ScanEnv :=
  { watch_ok := true,
    listing := [{ path := samplePath, is_file := true, in_error_dir := false }],
    statOf := fun _ => some 5, renameOf := fun _ => true }

theorem C3_processed_member_not_readmitted_witness :
    (processedState.processed_files.contains samplePath.name = true
      ∧ ∀ e ∈ rescanEnv.listing, e.path.str = samplePath.str →
          e.path.name = samplePath.name)
    ∧ on_created 99 false (some 5) true samplePath processedState
        = processedState
    ∧ (scan_directory 99 rescanEnv processedState).1.pipeline_calls
        = processedState.pipeline_calls
    ∧ fipHasKey (scan_directory 99 rescanEnv
        processedState).1.files_in_progress samplePath.str
        = fipHasKey processedState.files_in_progress samplePath.str :=
  ⟨⟨by decide, by decide⟩,
   C3_processed_member_not_readmitted 99 samplePath processedState false
     (some 5) true rescanEnv (by decide) (by decide)⟩

/-! ## Claim C4 -/

def badPath : FPath := { dir := "watch", stem := "bad", suffix := ".mp3" }

/-- The per-path pipeline environment of one failing attempt. -/
def failEnv (msg : String) : PipeEnv :=
  { file_exists := true, outcome := .error msg, rename_ok := true }

/-- C4 counterexample: a path failing at times 10, 20, 30 is quarantined at
its third failure — but the quarantine erases the retry record, so when
the same path is re-detected at time 40 `start_monitoring_file` re-tracks
it instead of quarantining, and the next stable check at time 44 hands it
to the pipeline a fourth time.  The claim's "never handed to the pipeline
again under the same path identity / a later re-detection moves it to
quarantine" is false after a successful quarantine. -/
theorem C4_counterexample_requeued_after_quarantine :
    (process_audio_file 30 (failEnv "e3") badPath
      (process_audio_file 20 (failEnv "e2") badPath
        (process_audio_file 10 (failEnv "e1") badPath
          emptyState))).quarantined.length = 1
    ∧ (start_monitoring_file 40 (some 9) true badPath
        (process_audio_file 30 (failEnv "e3") badPath
          (process_audio_file 20 (failEnv "e2") badPath
            (process_audio_file 10 (failEnv "e1") badPath
              emptyState)))).quarantined.length = 1
    ∧ fipHasKey (start_monitoring_file 40 (some 9) true badPath
        (process_audio_file 30 (failEnv "e3") badPath
          (process_audio_file 20 (failEnv "e2") badPath
            (process_audio_file 10 (failEnv "e1") badPath
              emptyState)))).files_in_progress badPath.str = true
    ∧ (check_files_in_progress
        { obs := fun _ => .present 9, pipe := fun _ => failEnv "e4" } 44
        (start_monitoring_file 40 (some 9) true badPath
          (process_audio_file 30 (failEnv "e3") badPath
            (process_audio_file 20 (failEnv "e2") badPath
              (process_audio_file 10 (failEnv "e1") badPath
                emptyState))))).pipeline_calls.count badPath.str = 4 := by
  refine ⟨by decide, by decide, by decide, by decide⟩

/-- C4 amended: each failed pipeline invocation increments the path's
attempt count by exactly one.  When the incremented count reaches
`max_retry_attempts` (3) and the rename succeeds, the file is quarantined
and its retry record erased.  A later re-detection is diverted to
quarantine instead of being re-tracked exactly while a retry record with
at least 3 attempts is still present (which, after a successful
quarantine, is no longer the case: the same path would then be tracked
afresh, as the counterexample shows). -/
theorem C4_amended_retry_exhaustion (p : FPath) (s : HandlerState)
    (now now2 : Nat) (msg : String) (env : PipeEnv)
    (hex : env.file_exists = true) (hout : env.outcome = .error msg) :
    ((lookupKey p.str s.failed_counts).getD 0 + 1 < max_retry_attempts →
      lookupKey p.str (process_audio_file now env p s).failed_counts
          = some ((lookupKey p.str s.failed_counts).getD 0 + 1)
      ∧ (process_audio_file now env p s).quarantined = s.quarantined)
    ∧ (max_retry_attempts ≤ (lookupKey p.str s.failed_counts).getD 0 + 1 →
        env.rename_ok = true →
        lookupKey p.str (process_audio_file now env p s).failed_counts = none
        ∧ ∃ ename, (process_audio_file now env p s).quarantined
            = s.quarantined ++ [(ename,
                { original_path := p.str, first_error_time := now,
                  attempts := (lookupKey p.str s.failed_counts).getD 0 + 1,
                  last_error := msg })])
    ∧ (∀ a statSz rOk, lookupKey p.str s.failed_counts = some a →
        max_retry_attempts ≤ a →
        (start_monitoring_file now2 statSz rOk p s).files_in_progress
            = s.files_in_progress
        ∧ (start_monitoring_file now2 statSz rOk p s).pipeline_calls
            = s.pipeline_calls
        ∧ (rOk = true →
            (start_monitoring_file now2 statSz rOk p s).quarantined.length
              = s.quarantined.length + 1)) := by
  refine ⟨?_, ?_, ?_⟩
  · intro hlt
    obtain ⟨h1, -, h3⟩ :=
      process_audio_file_failure_records now p s hex hout hlt
    exact ⟨h1, h3⟩
  · intro hge hok
    obtain ⟨h1, -, h3⟩ :=
      process_audio_file_failure_quarantines now p s hex hout hok hge
    exact ⟨h1, h3⟩
  · intro a statSz rOk ha hge
    unfold start_monitoring_file
    rw [ha]
    simp only [if_pos hge]
    refine ⟨move_to_error_dir_fip .., move_to_error_dir_calls .., ?_⟩
    intro hok
    subst hok
    unfold move_to_error_dir
    simp

def retriedState : HandlerState :=
  { emptyState with
    failed_counts := [("watch/bad.mp3", 3)]
    failed_errors := [("watch/bad.mp3", "boom")] }

theorem C4_amended_retry_exhaustion_witness :
    ((failEnv "x").file_exists = true
      ∧ (failEnv "x").outcome = .error "x"
      ∧ lookupKey badPath.str retriedState.failed_counts = some 3
      ∧ max_retry_attempts ≤ 3)
    ∧ (start_monitoring_file 50 (some 5) true badPath
        retriedState).files_in_progress = retriedState.files_in_progress
    ∧ (start_monitoring_file 50 (some 5) true badPath
        retriedState).pipeline_calls = retriedState.pipeline_calls
    ∧ (start_monitoring_file 50 (some 5) true badPath
        retriedState).quarantined.length
        = retriedState.quarantined.length + 1 :=
  ⟨⟨rfl, rfl, by decide, by decide⟩,
   ((C4_amended_retry_exhaustion badPath retriedState 50 50 "x"
      (failEnv "x") rfl rfl).2.2 3 (some 5) true (by decide) (by decide)).1,
   ((C4_amended_retry_exhaustion badPath retriedState 50 50 "x"
      (failEnv "x") rfl rfl).2.2 3 (some 5) true (by decide) (by decide)).2.1,
   ((C4_amended_retry_exhaustion badPath retriedState 50 50 "x"
      (failEnv "x") rfl rfl).2.2 3 (some 5) true (by decide)
      (by decide)).2.2 rfl⟩

/-! ## Claim C7 -/

/-- C7: a file failing at times 10, 20 and 30 is quarantined at its third
failure with a sidecar whose `first_error_time` field holds 30 — the time
of the quarantine move — although its first failed ingestion attempt was
at time 10; the retry ledger (`failed_files`) never stores a first-error
timestamp at all (`main.py` line 253 writes `time.strftime(...)` of the
current time).  Original path, attempt count (3) and last error text are
recorded as claimed. -/
theorem C7_sidecar_first_error_time_is_quarantine_time :
    (process_audio_file 30 (failEnv "e3") badPath
      (process_audio_file 20 (failEnv "e2") badPath
        (process_audio_file 10 (failEnv "e1") badPath
          emptyState))).quarantined
      = [("bad.mp3", { original_path := "watch/bad.mp3", first_error_time := 30, attempts := 3, last_error := "e3" })]
    ∧ (30 : Nat) ≠ 10 := by
  refine ⟨by decide, by decide⟩

/-! ## Claim C8 -/

/-- C8: the audio relocation of `create_note` copies first, verifies the
destination's byte size against the source's, and unlinks the source only
when that verification succeeds — the move returns successfully exactly
when the copy produced the source's size at the destination; on a copy
failure or a verification mismatch an error is raised and the source file
is left in place with its contents intact. -/
theorem C8_move_verify_then_delete (fs : FileSys) (src dst : String)
    (copyResult : Option Nat) (ssz : Nat)
    (hsrc : lookupKey src fs = some ssz) (hne : src ≠ dst) :
    ((NoteManager.move_audio fs src dst copyResult).2 = .ok ()
        ↔ copyResult = some ssz)
    ∧ (copyResult = some ssz →
        lookupKey dst (NoteManager.move_audio fs src dst copyResult).1
            = some ssz
        ∧ lookupKey src (NoteManager.move_audio fs src dst copyResult).1
            = none)
    ∧ ((NoteManager.move_audio fs src dst copyResult).2 ≠ .ok () →
        lookupKey src (NoteManager.move_audio fs src dst copyResult).1
          = some ssz) := by
  have hdst_ne : dst ≠ src := fun hc => hne hc.symm
  cases copyResult with
  | none =>
    refine ⟨?_, ?_, ?_⟩
    · constructor
      · intro hc; exact absurd hc (by simp [NoteManager.move_audio])
      · intro hc; cases hc
    · intro hc; cases hc
    · intro _; exact hsrc
  | some k =>
    have h1 : lookupKey dst (setKey dst k fs) = some k :=
      lookupKey_setKey_self ..
    have h2 : lookupKey src (setKey dst k fs) = some ssz := by
      rw [lookupKey_setKey_ne hdst_ne]; exact hsrc
    by_cases hk : k = ssz
    · subst hk
      have hmove : NoteManager.move_audio fs src dst (some k)
          = (eraseKey src (setKey dst k fs), .ok ()) := by
        simp [NoteManager.move_audio, h1, h2]
      refine ⟨?_, ?_, ?_⟩
      · rw [hmove]; simp
      · intro _
        rw [hmove]
        constructor
        · show lookupKey dst (eraseKey src (setKey dst k fs)) = some k
          rw [lookupKey_eraseKey_ne hne]
          exact h1
        · exact lookupKey_eraseKey_self ..
      · intro hc
        rw [hmove] at hc
        simp at hc
    · have hfst : (NoteManager.move_audio fs src dst (some k)).1
          = setKey dst k fs := by
        simp [NoteManager.move_audio, h1, h2, hk]
      have hsnd : (NoteManager.move_audio fs src dst (some k)).2 ≠ .ok () := by
        simp [NoteManager.move_audio, h1, h2, hk]
      refine ⟨?_, ?_, ?_⟩
      · constructor
        · intro hc; exact absurd hc hsnd
        · intro hc; exact absurd (Option.some.inj hc) hk
      · intro hc; exact absurd (Option.some.inj hc) hk
      · intro _; rw [hfst]; exact h2

theorem C8_move_verify_then_delete_witness :
    (lookupKey "watch/sample.wav" [("watch/sample.wav", 7)] = some 7
      ∧ "watch/sample.wav" ≠ "vault/sample.wav")
    ∧ ((NoteManager.move_audio [("watch/sample.wav", 7)] "watch/sample.wav"
        "vault/sample.wav" (some 7)).2 = .ok () ↔ some 7 = some (7 : Nat))
    ∧ lookupKey "vault/sample.wav"
        (NoteManager.move_audio [("watch/sample.wav", 7)] "watch/sample.wav"
          "vault/sample.wav" (some 7)).1 = some 7
    ∧ lookupKey "watch/sample.wav"
        (NoteManager.move_audio [("watch/sample.wav", 7)] "watch/sample.wav"
          "vault/sample.wav" (some 7)).1 = none :=
  ⟨⟨by decide, by decide⟩,
   (C8_move_verify_then_delete [("watch/sample.wav", 7)] "watch/sample.wav"
     "vault/sample.wav" (some 7) 7 (by decide) (by decide)).1,
   ((C8_move_verify_then_delete [("watch/sample.wav", 7)] "watch/sample.wav"
     "vault/sample.wav" (some 7) 7 (by decide) (by decide)).2.1 rfl).1,
   ((C8_move_verify_then_delete [("watch/sample.wav", 7)] "watch/sample.wav"
     "vault/sample.wav" (some 7) 7 (by decide) (by decide)).2.1 rfl).2⟩

/-! ## Claim C9 -/

def manyNames : List String := (List.range 1001).map (fun i => "f" ++ toString i)

def overfullState : HandlerState :=
  { emptyState with processed_files := manyNames }

/-- C9 counterexample: a processed set of 1001 distinct names exceeds the
cap (1000), yet a tick at time 100 — the hourly health interval not having
elapsed since the last check at 0 — leaves all 1001 entries in place.  The
set is therefore not bounded in size by its cap, and exceeding the cap
does not imply the set is cleared: the trim only ever runs inside the
hourly health block. -/
theorem C9_counterexample_cap_exceeded_without_clear :
    max_processed_files < overfullState.processed_files.length
    ∧ (health_block 100 true overfullState).processed_files.length
        = 1001 := by
  have hlen : overfullState.processed_files.length = 1001 := by
    simp [overfullState, emptyState, manyNames]
  have hlh : overfullState.last_health_check = 0 := rfl
  have hblock : health_block 100 true overfullState = overfullState := by
    unfold health_block
    rw [if_neg (by rw [hlh]; decide)]
  constructor
  · rw [hlen]; decide
  · rw [hblock, hlen]

/-- C9 amended: the processed-set trim runs only inside the hourly health
block; when the health interval has elapsed and the set exceeds its cap
(1000 entries) the whole set is cleared to empty, and the block always
leaves at most 1000 entries.  Between health checks the set can exceed the
cap without being cleared. -/
theorem C9_amended_trim_at_health_check (now : Nat) (rest_ok : Bool)
    (s : HandlerState)
    (helapsed : health_check_interval ≤ now - s.last_health_check) :
    (max_processed_files < s.processed_files.length →
      (health_block now rest_ok s).processed_files = [])
    ∧ (health_block now rest_ok s).processed_files.length
        ≤ max_processed_files := by
  unfold health_block
  rw [if_pos helapsed]
  by_cases hbig : max_processed_files < s.processed_files.length
  · cases rest_ok <;> simp [hbig]
  · cases rest_ok <;> simp [hbig] <;> omega

theorem overfullState_big :
    max_processed_files < overfullState.processed_files.length := by
  have hlen : overfullState.processed_files.length = 1001 := by
    simp [overfullState, emptyState, manyNames]
  rw [hlen]; decide

theorem C9_amended_trim_at_health_check_witness :
    health_check_interval ≤ 5000 - overfullState.last_health_check
    ∧ (health_block 5000 true overfullState).processed_files = []
    ∧ (health_block 5000 true overfullState).processed_files.length
        ≤ max_processed_files :=
  ⟨by decide,
   (C9_amended_trim_at_health_check 5000 true overfullState (by decide)).1
     overfullState_big,
   (C9_amended_trim_at_health_check 5000 true overfullState (by decide)).2⟩

/-! ## Claim C10 -/

theorem attemptsFor_nil_of_all_fail
    (gen : ℚ → Except String OllamaProcessor.ParsedResponse)
    (evalQ : ℚ → OllamaProcessor.ParsedResponse →
      OllamaProcessor.ConversionQuality) (cleaned : String) :
    ∀ ts : List ℚ, (∀ t ∈ ts, ∃ e, gen t = .error e) →
      OllamaProcessor.attemptsFor gen evalQ cleaned ts = [] := by
  intro ts
  induction ts with
  | nil => intro _; rfl
  | cons t ts ih =>
    intro h
    obtain ⟨e, he⟩ := h t (List.mem_cons_self t ts)
    unfold OllamaProcessor.attemptsFor
    rw [he]
    exact ih (fun x hx => h x (List.mem_cons_of_mem t hx))

/-- C10: when every temperature-varied generation attempt raises or
produces unparseable output, `process_transcription` still returns (never
raises) the fallback record: title `Untitled Note`, content and
original transcription both the cleaned input text, empty tag and task
lists, and an all-zero conversion-quality record. -/
theorem C10_all_attempts_fail_gives_fallback
    (gen : ℚ → Except String OllamaProcessor.ParsedResponse)
    (evalQ : ℚ → OllamaProcessor.ParsedResponse →
      OllamaProcessor.ConversionQuality) (text : String)
    (hfail : ∀ t ∈ OllamaProcessor.temperatures, ∃ e, gen t = .error e) :
    OllamaProcessor.process_transcription gen evalQ text =
      { title := "Untitled Note"
        content := OllamaProcessor.cleanedInput text
        tags := []
        tasks := []
        original_transcription := OllamaProcessor.cleanedInput text
        conversion_quality := OllamaProcessor.failedQuality } := by
  simp only [OllamaProcessor.process_transcription]
  rw [attemptsFor_nil_of_all_fail gen evalQ _ _ hfail]

def genFails : ℚ → Except String OllamaProcessor.ParsedResponse :=
  fun _ => .error "Ollama connection refused"

def evalNever : ℚ → OllamaProcessor.ParsedResponse →
    OllamaProcessor.ConversionQuality :=
  fun _ _ => OllamaProcessor.failedQuality

theorem C10_all_attempts_fail_gives_fallback_witness :
    (∀ t ∈ OllamaProcessor.temperatures, ∃ e, genFails t = .error e)
    ∧ OllamaProcessor.process_transcription genFails evalNever
        "note. note. remember this" =
      { title := "Untitled Note"
        content := "note. remember this"
        tags := []
        tasks := []
        original_transcription := "note. remember this"
        conversion_quality := OllamaProcessor.failedQuality } :=
  ⟨fun _ _ => ⟨_, rfl⟩, by
    rw [C10_all_attempts_fail_gives_fallback genFails evalNever
      "note. note. remember this" (fun _ _ => ⟨_, rfl⟩)]
    decide⟩

end EchoEtch
